import Mathlib

/-!
Verification of the conntrack Flow codec (`flow.go`).

The file embeds the Flow aggregate codec — `NewFlow`, `Flow.unmarshal`,
`Flow.marshal`, `unmarshalFlow`, `unmarshalFlows` — as Lean functions,
translated from `src/flow.go`.  The composite sub-entity codecs (Tuple,
Status, ProtoInfo, Helper, Counter, Security, Timestamp, SequenceAdjust,
SynProxy) and the attribute-type constants belong to repository files that
are not part of the given sources; they are modelled from the spec where
indicated.  Machine integers are modelled as `Nat`; Go's `(value, error)`
returns become `Except Err`.
-/

namespace Conntrack

/-! ## Bytes and the attribute primitive -/

/-- Big-endian interpretation of a byte list, as used by the attribute
primitive's scalar accessors. -/
def bytesToNat (bs : List Nat) : Nat :=
  bs.foldl (fun acc b => acc * 256 + b) 0

/-- Big-endian 2-byte encoding of a 16-bit value. -/
def natToBytes2 (v : Nat) : List Nat :=
  [v / 256 % 256, v % 256]

/-- Big-endian 4-byte encoding of a 32-bit value. -/
def natToBytes4 (v : Nat) : List Nat :=
  [v / 16777216 % 256, v / 65536 % 256, v / 256 % 256, v % 256]

/-- Modelled from the spec: the external attribute primitive's
`(numeric type, raw value bytes)` pair, where a value may itself be a
nested sequence of attributes (netfilter.Attribute). -/
inductive Attribute where
  | mk (typ : Nat) (data : List Nat) (children : List Attribute)

/-- Numeric type code of an attribute. -/
def Attribute.typ : Attribute → Nat
  | .mk t _ _ => t

/-- Raw value bytes of an attribute. -/
def Attribute.data : Attribute → List Nat
  | .mk _ d _ => d

/-- Nested attribute group of an attribute. -/
def Attribute.children : Attribute → List Attribute
  | .mk _ _ c => c

/-- Modelled from the spec: the attribute primitive's 32-bit scalar accessor. -/
def Attribute.Uint32 (a : Attribute) : Nat := bytesToNat a.data

/-- Modelled from the spec: the attribute primitive's 16-bit scalar accessor. -/
def Attribute.Uint16 (a : Attribute) : Nat := bytesToNat a.data

/-! ## Errors -/

/-- The error kinds of the codec (spec section 7): unknown top-level
attribute (carrying the offending code), missing required tuple on encode,
invalid address family on tuple encode, malformed nested value on a
sub-entity decode. -/
inductive Err where
  | errAttributeUnknown (typ : Nat)
  | errNeedTuples
  | errBadAddressFamily
  | errMalformed (what : String)
deriving DecidableEq, Repr

/-! ## Attribute type codes

Modelled from the spec (section 6 table); the concrete numbers follow the
kernel's conntrack netlink enumeration, only their distinctness matters. -/

def CTATupleOrig : Nat := 1
def CTATupleReply : Nat := 2
def CTAStatus : Nat := 3
def CTAProtoInfo : Nat := 4
def CTAHelp : Nat := 5
def CTATimeout : Nat := 7
def CTAMark : Nat := 8
def CTACountersOrig : Nat := 9
def CTACountersReply : Nat := 10
def CTAUse : Nat := 11
def CTAID : Nat := 12
def CTATupleMaster : Nat := 14
def CTASeqAdjOrig : Nat := 15
def CTASeqAdjReply : Nat := 16
def CTAZone : Nat := 18
def CTASecCtx : Nat := 19
def CTATimestamp : Nat := 20
def CTALabels : Nat := 22
def CTALabelsMask : Nat := 23
def CTASynProxy : Nat := 24

def CTATupleIP : Nat := 1
def CTATupleProto : Nat := 2
def CTAIPv4Src : Nat := 1
def CTAIPv4Dst : Nat := 2
def CTAIPv6Src : Nat := 3
def CTAIPv6Dst : Nat := 4
def CTAProtoNum : Nat := 1
def CTAProtoSrcPort : Nat := 2
def CTAProtoDstPort : Nat := 3
def CTAProtoInfoTCP : Nat := 1
def CTAProtoInfoDCCP : Nat := 2
def CTAProtoInfoSCTP : Nat := 3
def CTAHelpName : Nat := 1
def CTAHelpInfo : Nat := 2
def CTACounterPackets : Nat := 1
def CTACounterBytes : Nat := 2
def CTASecCtxName : Nat := 1
def CTATimestampStart : Nat := 1
def CTATimestampStop : Nat := 2
def CTASeqAdjPos : Nat := 1
def CTASeqAdjBefore : Nat := 2
def CTASeqAdjAfter : Nat := 3
def CTASynProxyISN : Nat := 1
def CTASynProxyOptions : Nat := 2
def CTASynProxyWScale : Nat := 3

/-! ## Scalar wrappers -/

/-- Modelled from the spec: trivial single-value attribute encoder for a
32-bit integer (Num32). -/
structure Num32 where
  Value : Nat
deriving DecidableEq, Repr

/-- Num32 encode: one attribute under the given type code. -/
def Num32.MarshalAttribute (n : Num32) (t : Nat) : Attribute :=
  .mk t (natToBytes4 n.Value) []

/-- Modelled from the spec: trivial single-value attribute encoder for a
16-bit integer (Num16). -/
structure Num16 where
  Value : Nat
deriving DecidableEq, Repr

/-- Num16 encode: one attribute under the given type code. -/
def Num16.MarshalAttribute (n : Num16) (t : Nat) : Attribute :=
  .mk t (natToBytes2 n.Value) []

/-! ## Tuple codec (modelled from the spec, section 4.2) -/

/-- Source/destination addresses of a directional identity; addresses are
raw byte lists (4 bytes = IPv4, 16 bytes = IPv6). -/
structure IPTuple where
  SourceAddress : List Nat
  DestinationAddress : List Nat
deriving DecidableEq, Repr

/-- L4 protocol number and source/destination ports of a directional
identity. -/
structure ProtoTuple where
  Protocol : Nat
  SourcePort : Nat
  DestinationPort : Nat
deriving DecidableEq, Repr

/-- Modelled from the spec: one directional connection identity. -/
structure Tuple where
  IP : IPTuple
  Proto : ProtoTuple
deriving DecidableEq, Repr

/-- The zero Tuple. -/
def Tuple.empty : Tuple := ⟨⟨[], []⟩, ⟨0, 0, 0⟩⟩

/-- Modelled from the spec: `filled()` is true iff both addresses are set
(non-empty) and the protocol is nonzero. -/
def Tuple.Filled (t : Tuple) : Bool :=
  !t.IP.SourceAddress.isEmpty && !t.IP.DestinationAddress.isEmpty
    && t.Proto.Protocol != 0

/-- Modelled from the spec: tuple encode derives the address family from
the address byte length (4 or 16); any other length fails with an
address-family error.  Produces a nested attribute group (address
sub-group, protocol sub-group) under the given top-level type code. -/
def Tuple.MarshalAttribute (t : Tuple) (at_ : Nat) : Except Err Attribute :=
  if t.IP.SourceAddress.length != 4 && t.IP.SourceAddress.length != 16 then
    .error .errBadAddressFamily
  else if t.IP.DestinationAddress.length != 4 && t.IP.DestinationAddress.length != 16 then
    .error .errBadAddressFamily
  else
    .ok (.mk at_ []
      [.mk CTATupleIP []
        [.mk (if t.IP.SourceAddress.length = 4 then CTAIPv4Src else CTAIPv6Src)
          t.IP.SourceAddress [],
         .mk (if t.IP.DestinationAddress.length = 4 then CTAIPv4Dst else CTAIPv6Dst)
          t.IP.DestinationAddress []],
       .mk CTATupleProto []
        [.mk CTAProtoNum [t.Proto.Protocol % 256] [],
         .mk CTAProtoSrcPort (natToBytes2 t.Proto.SourcePort) [],
         .mk CTAProtoDstPort (natToBytes2 t.Proto.DestinationPort) []]])

/-- Modelled from the spec: tuple decode recurses into the nested address
and protocol sub-groups; a shape it cannot interpret is a malformed-value
error. -/
def Tuple.UnmarshalAttribute (a : Attribute) : Except Err Tuple :=
  match a.children with
  | [ip, proto] =>
    if ip.typ = CTATupleIP ∧ proto.typ = CTATupleProto then
      match ip.children, proto.children with
      | [s, d], [pn, sp, dp] =>
        if (s.typ = CTAIPv4Src ∨ s.typ = CTAIPv6Src)
            ∧ (d.typ = CTAIPv4Dst ∨ d.typ = CTAIPv6Dst)
            ∧ pn.typ = CTAProtoNum ∧ sp.typ = CTAProtoSrcPort
            ∧ dp.typ = CTAProtoDstPort then
          .ok ⟨⟨s.data, d.data⟩,
               ⟨bytesToNat pn.data, bytesToNat sp.data, bytesToNat dp.data⟩⟩
        else .error (.errMalformed "tuple")
      | _, _ => .error (.errMalformed "tuple")
    else .error (.errMalformed "tuple")
  | _ => .error (.errMalformed "tuple")

/-! ## Status codec (modelled from the spec, section 4.3) -/

/-- Modelled from the spec: a 32-bit connection-state flag word, stored and
transported as an opaque raw value. -/
structure Status where
  Value : Nat
deriving DecidableEq, Repr

/-- Status encode: the raw 32-bit value under CTA_STATUS. -/
def Status.MarshalAttribute (s : Status) : Attribute :=
  .mk CTAStatus (natToBytes4 s.Value) []

/-- Status decode: reads the raw 32-bit value, no internal validation. -/
def Status.UnmarshalAttribute (a : Attribute) : Except Err Status :=
  .ok ⟨bytesToNat a.data⟩

/-! ## Composite sub-entity codecs (modelled from the spec, section 4.4) -/

/-- Protocol variant of ProtoInfo: exactly one of TCP, DCCP, SCTP. -/
inductive ProtoInfoVariant where
  | tcp (state : Nat)
  | dccp (state : Nat)
  | sctp (state : Nat)
deriving DecidableEq, Repr

/-- Modelled from the spec: ProtoInfo is polymorphic over protocol variant
{TCP, DCCP, SCTP}; exactly zero or one variant is populated. -/
structure ProtoInfo where
  variant : Option ProtoInfoVariant
deriving DecidableEq, Repr

/-- ProtoInfo `filled()`: true iff any variant is populated. -/
def ProtoInfo.Filled (p : ProtoInfo) : Bool := p.variant.isSome

/-- ProtoInfo encode: one nested child selected by the populated variant. -/
def ProtoInfo.MarshalAttribute (p : ProtoInfo) : Attribute :=
  match p.variant with
  | some (.tcp s) => .mk CTAProtoInfo [] [.mk CTAProtoInfoTCP (natToBytes4 s) []]
  | some (.dccp s) => .mk CTAProtoInfo [] [.mk CTAProtoInfoDCCP (natToBytes4 s) []]
  | some (.sctp s) => .mk CTAProtoInfo [] [.mk CTAProtoInfoSCTP (natToBytes4 s) []]
  | none => .mk CTAProtoInfo [] []

/-- ProtoInfo decode: inspects the nested group's own attribute type to
select exactly one variant decoder. -/
def ProtoInfo.UnmarshalAttribute (a : Attribute) : Except Err ProtoInfo :=
  match a.children with
  | [c] =>
    if c.typ = CTAProtoInfoTCP then .ok ⟨some (.tcp (bytesToNat c.data))⟩
    else if c.typ = CTAProtoInfoDCCP then .ok ⟨some (.dccp (bytesToNat c.data))⟩
    else if c.typ = CTAProtoInfoSCTP then .ok ⟨some (.sctp (bytesToNat c.data))⟩
    else .error (.errMalformed "protoinfo")
  | _ => .error (.errMalformed "protoinfo")

/-- Modelled from the spec: helper module name plus an opaque data blob. -/
structure Helper where
  Name : List Nat
  Info : List Nat
deriving DecidableEq, Repr

/-- Helper `filled()`: true iff the name or the data blob is set. -/
def Helper.Filled (h : Helper) : Bool := !h.Name.isEmpty || !h.Info.isEmpty

/-- Helper encode: nested name and data attributes under CTA_HELP. -/
def Helper.MarshalAttribute (h : Helper) : Attribute :=
  .mk CTAHelp [] [.mk CTAHelpName h.Name [], .mk CTAHelpInfo h.Info []]

/-- Helper decode: reads a name and an opaque data blob. -/
def Helper.UnmarshalAttribute (a : Attribute) : Except Err Helper :=
  match a.children with
  | [n, i] =>
    if n.typ = CTAHelpName ∧ i.typ = CTAHelpInfo then .ok ⟨n.data, i.data⟩
    else .error (.errMalformed "helper")
  | _ => .error (.errMalformed "helper")

/-- Modelled from the spec: independent 64-bit packet and byte counts. -/
structure Counter where
  Packets : Nat
  Bytes : Nat
deriving DecidableEq, Repr

/-- Counter decode: reads independent packet-count and byte-count
sub-attributes. -/
def Counter.UnmarshalAttribute (a : Attribute) : Except Err Counter :=
  match a.children with
  | [p, b] =>
    if p.typ = CTACounterPackets ∧ b.typ = CTACounterBytes then
      .ok ⟨bytesToNat p.data, bytesToNat b.data⟩
    else .error (.errMalformed "counter")
  | _ => .error (.errMalformed "counter")

/-- Modelled from the spec: a single textual SELinux context label. -/
structure Security where
  Name : List Nat
deriving DecidableEq, Repr

/-- SecurityContext decode: reads a single string value. -/
def Security.UnmarshalAttribute (a : Attribute) : Except Err Security :=
  match a.children with
  | [n] =>
    if n.typ = CTASecCtxName then .ok ⟨n.data⟩
    else .error (.errMalformed "security")
  | _ => .error (.errMalformed "security")

/-- Modelled from the spec: start time and optional stop time of a flow,
in nanoseconds (stop is zero/absent while the connection is open). -/
structure Timestamp where
  Start : Nat
  Stop : Nat
deriving DecidableEq, Repr

/-- Timestamp decode: reads start (always present once emitted) and stop
(optional) nanosecond values. -/
def Timestamp.UnmarshalAttribute (a : Attribute) : Except Err Timestamp :=
  match a.children with
  | [s] =>
    if s.typ = CTATimestampStart then .ok ⟨bytesToNat s.data, 0⟩
    else .error (.errMalformed "timestamp")
  | [s, t] =>
    if s.typ = CTATimestampStart ∧ t.typ = CTATimestampStop then
      .ok ⟨bytesToNat s.data, bytesToNat t.data⟩
    else .error (.errMalformed "timestamp")
  | _ => .error (.errMalformed "timestamp")

/-- Modelled from the spec: TCP sequence-number correction state for one
direction: correction position and before/after offset deltas. -/
structure SequenceAdjust where
  Position : Nat
  OffsetBefore : Nat
  OffsetAfter : Nat
deriving DecidableEq, Repr

/-- SequenceAdjust `filled()`: true iff any field is nonzero. -/
def SequenceAdjust.Filled (s : SequenceAdjust) : Bool :=
  s.Position != 0 || s.OffsetBefore != 0 || s.OffsetAfter != 0

/-- SequenceAdjust encode. The direction (Orig/Reply top-level code) is
supplied by the caller, matching the field the value is taken from. -/
def SequenceAdjust.MarshalAttribute (s : SequenceAdjust) (at_ : Nat) : Attribute :=
  .mk at_ []
    [.mk CTASeqAdjPos (natToBytes4 s.Position) [],
     .mk CTASeqAdjBefore (natToBytes4 s.OffsetBefore) [],
     .mk CTASeqAdjAfter (natToBytes4 s.OffsetAfter) []]

/-- SequenceAdjust decode: reads correction position and before/after
offset deltas. -/
def SequenceAdjust.UnmarshalAttribute (a : Attribute) : Except Err SequenceAdjust :=
  match a.children with
  | [p, b, c] =>
    if p.typ = CTASeqAdjPos ∧ b.typ = CTASeqAdjBefore ∧ c.typ = CTASeqAdjAfter then
      .ok ⟨bytesToNat p.data, bytesToNat b.data, bytesToNat c.data⟩
    else .error (.errMalformed "seqadj")
  | _ => .error (.errMalformed "seqadj")

/-- Modelled from the spec: SYN-proxy negotiation state: initial sequence
number, TCP options blob, window scale. -/
structure SynProxy where
  ISN : Nat
  Options : List Nat
  WindowScale : Nat
deriving DecidableEq, Repr

/-- SynProxy `filled()`: true iff any field is set. -/
def SynProxy.Filled (s : SynProxy) : Bool :=
  s.ISN != 0 || !s.Options.isEmpty || s.WindowScale != 0

/-- SynProxy encode. -/
def SynProxy.MarshalAttribute (s : SynProxy) : Attribute :=
  .mk CTASynProxy []
    [.mk CTASynProxyISN (natToBytes4 s.ISN) [],
     .mk CTASynProxyOptions s.Options [],
     .mk CTASynProxyWScale (natToBytes4 s.WindowScale) []]

/-- SynProxy decode: reads initial sequence number, options blob, window
scale. -/
def SynProxy.UnmarshalAttribute (a : Attribute) : Except Err SynProxy :=
  match a.children with
  | [i, o, w] =>
    if i.typ = CTASynProxyISN ∧ o.typ = CTASynProxyOptions ∧ w.typ = CTASynProxyWScale then
      .ok ⟨bytesToNat i.data, o.data, bytesToNat w.data⟩
    else .error (.errMalformed "synproxy")
  | _ => .error (.errMalformed "synproxy")

/-! ## Flow (translated from `src/flow.go`) -/

/-- Flow represents a snapshot of a Conntrack connection (flow.go, lines
13-37). -/
structure Flow where
  ID : Nat
  Timeout : Nat
  Timestamp : Timestamp
  Status : Status
  ProtoInfo : ProtoInfo
  Helper : Helper
  Zone : Nat
  CountersOrig : Counter
  CountersReply : Counter
  SecurityContext : Security
  TupleOrig : Tuple
  TupleReply : Tuple
  TupleMaster : Tuple
  SeqAdjOrig : SequenceAdjust
  SeqAdjReply : SequenceAdjust
  Labels : List Nat
  LabelsMask : List Nat
  Mark : Nat
  Use : Nat
  SynProxy : SynProxy
deriving DecidableEq, Repr

/-- The zero Flow (Go `var f Flow`). -/
def Flow.empty : Flow :=
  ⟨0, 0, ⟨0, 0⟩, ⟨0⟩, ⟨none⟩, ⟨[], []⟩, 0, ⟨0, 0⟩, ⟨0, 0⟩, ⟨[]⟩,
   Tuple.empty, Tuple.empty, Tuple.empty, ⟨0, 0, 0⟩, ⟨0, 0, 0⟩,
   [], [], 0, 0, ⟨0, [], 0⟩⟩

/-- NewFlow returns a new Flow with the minimum attributes to create a
Conntrack entry (flow.go, lines 47-70). -/
def NewFlow (proto status : Nat) (srcAddr destAddr : List Nat)
    (srcPort destPort : Nat) (timeout mark : Nat) : Flow :=
  { Flow.empty with
    Status := { Value := status },
    Timeout := timeout,
    Mark := mark,
    TupleOrig :=
      { IP := { SourceAddress := srcAddr, DestinationAddress := destAddr },
        Proto := { Protocol := proto, SourcePort := srcPort, DestinationPort := destPort } },
    TupleReply :=
      { IP := { SourceAddress := destAddr, DestinationAddress := srcAddr },
        Proto := { Protocol := proto, SourcePort := destPort, DestinationPort := srcPort } } }

/-- One iteration of the `Flow.unmarshal` dispatch switch (flow.go, lines
77-174): dispatch one attribute on its numeric type to the matching field
or sub-entity decoder. -/
def Flow.unmarshalAttribute (f : Flow) (attr : Attribute) : Except Err Flow :=
  if attr.typ = CTATimeout then .ok { f with Timeout := attr.Uint32 }
  else if attr.typ = CTAID then .ok { f with ID := attr.Uint32 }
  else if attr.typ = CTAUse then .ok { f with Use := attr.Uint32 }
  else if attr.typ = CTAMark then .ok { f with Mark := attr.Uint32 }
  else if attr.typ = CTAZone then .ok { f with Zone := attr.Uint16 }
  else if attr.typ = CTALabels then .ok { f with Labels := attr.data }
  else if attr.typ = CTALabelsMask then .ok { f with LabelsMask := attr.data }
  else if attr.typ = CTATupleOrig then
    match Tuple.UnmarshalAttribute attr with
    | .error e => .error e
    | .ok t => .ok { f with TupleOrig := t }
  else if attr.typ = CTATupleReply then
    match Tuple.UnmarshalAttribute attr with
    | .error e => .error e
    | .ok t => .ok { f with TupleReply := t }
  else if attr.typ = CTATupleMaster then
    match Tuple.UnmarshalAttribute attr with
    | .error e => .error e
    | .ok t => .ok { f with TupleMaster := t }
  else if attr.typ = CTAStatus then
    match Status.UnmarshalAttribute attr with
    | .error e => .error e
    | .ok s => .ok { f with Status := s }
  else if attr.typ = CTAProtoInfo then
    match ProtoInfo.UnmarshalAttribute attr with
    | .error e => .error e
    | .ok p => .ok { f with ProtoInfo := p }
  else if attr.typ = CTAHelp then
    match Helper.UnmarshalAttribute attr with
    | .error e => .error e
    | .ok h => .ok { f with Helper := h }
  else if attr.typ = CTACountersOrig then
    match Counter.UnmarshalAttribute attr with
    | .error e => .error e
    | .ok c => .ok { f with CountersOrig := c }
  else if attr.typ = CTACountersReply then
    match Counter.UnmarshalAttribute attr with
    | .error e => .error e
    | .ok c => .ok { f with CountersReply := c }
  else if attr.typ = CTASecCtx then
    match Security.UnmarshalAttribute attr with
    | .error e => .error e
    | .ok s => .ok { f with SecurityContext := s }
  else if attr.typ = CTATimestamp then
    match Timestamp.UnmarshalAttribute attr with
    | .error e => .error e
    | .ok t => .ok { f with Timestamp := t }
  else if attr.typ = CTASeqAdjOrig then
    match SequenceAdjust.UnmarshalAttribute attr with
    | .error e => .error e
    | .ok s => .ok { f with SeqAdjOrig := s }
  else if attr.typ = CTASeqAdjReply then
    match SequenceAdjust.UnmarshalAttribute attr with
    | .error e => .error e
    | .ok s => .ok { f with SeqAdjReply := s }
  else if attr.typ = CTASynProxy then
    match SynProxy.UnmarshalAttribute attr with
    | .error e => .error e
    | .ok s => .ok { f with SynProxy := s }
  else .error (.errAttributeUnknown attr.typ)

/-- Translation of `Flow.unmarshal` (flow.go, lines 73-178): iterate the attribute list in
input order, dispatching each attribute; the first error aborts the whole
decode. -/
def Flow.unmarshal (f : Flow) : List Attribute → Except Err Flow
  | [] => .ok f
  | attr :: rest =>
    match f.unmarshalAttribute attr with
    | .error e => .error e
    | .ok g => g.unmarshal rest

/-- Translation of `Flow.marshal` (flow.go, lines 181-248): requires both tuples filled,
then emits TupleOrig, TupleReply and the conditional optional attributes in
the source's fixed order. -/
def Flow.marshal (f : Flow) : Except Err (List Attribute) :=
  if !(f.TupleOrig.Filled && f.TupleReply.Filled) then .error .errNeedTuples
  else
    match f.TupleOrig.MarshalAttribute CTATupleOrig with
    | .error e => .error e
    | .ok torig =>
      match f.TupleReply.MarshalAttribute CTATupleReply with
      | .error e => .error e
      | .ok trepl =>
        let attrs := [torig, trepl]
        let attrs := if f.Timeout != 0 then
          attrs ++ [(Num32.mk f.Timeout).MarshalAttribute CTATimeout] else attrs
        let attrs := if f.Status.Value != 0 then
          attrs ++ [f.Status.MarshalAttribute] else attrs
        let attrs := if f.Mark != 0 then
          attrs ++ [(Num32.mk f.Mark).MarshalAttribute CTAMark] else attrs
        let attrs := if f.Zone != 0 then
          attrs ++ [(Num16.mk f.Zone).MarshalAttribute CTAZone] else attrs
        let attrs := if f.ProtoInfo.Filled then
          attrs ++ [f.ProtoInfo.MarshalAttribute] else attrs
        let attrs := if f.Helper.Filled then
          attrs ++ [f.Helper.MarshalAttribute] else attrs
        match (if f.TupleMaster.Filled then
            (f.TupleMaster.MarshalAttribute CTATupleMaster).map (fun tm => attrs ++ [tm])
          else .ok attrs) with
        | .error e => .error e
        | .ok attrs2 =>
          let attrs3 := if f.SeqAdjOrig.Filled then
            attrs2 ++ [f.SeqAdjOrig.MarshalAttribute CTASeqAdjOrig] else attrs2
          let attrs4 := if f.SeqAdjReply.Filled then
            attrs3 ++ [f.SeqAdjReply.MarshalAttribute CTASeqAdjReply] else attrs3
          let attrs5 := if f.SynProxy.Filled then
            attrs4 ++ [f.SynProxy.MarshalAttribute] else attrs4
          .ok attrs5

/-- Modelled from the spec: a raw netlink message at the transport
collaborator's interface, carrying the result of unwrapping it into its
flat attribute sequence. -/
structure Message where
  payload : Except Err (List Attribute)

/-- Modelled from the spec: the transport collaborator's unwrap of one raw
message into its flat attribute sequence (assumed correct, out of scope
here). -/
def UnmarshalNetlink (m : Message) : Except Err (List Attribute) := m.payload

/-- Translation of `unmarshalFlow` (flow.go, lines 252-267): unwrap one message and decode
a Flow from its attribute sequence. -/
def unmarshalFlow (nlm : Message) : Except Err Flow :=
  match UnmarshalNetlink nlm with
  | .error e => .error e
  | .ok qattrs => Flow.empty.unmarshal qattrs

/-- Translation of `unmarshalFlows` (flow.go, lines 271-287): decode each message in input
order, aborting on the first failure. -/
def unmarshalFlows : List Message → Except Err (List Flow)
  | [] => .ok []
  | m :: rest =>
    match unmarshalFlow m with
    | .error e => .error e
    | .ok f =>
      match unmarshalFlows rest with
      | .error e => .error e
      | .ok fs => .ok (f :: fs)

/-! ## Byte round-trip lemmas -/

theorem bytesToNat_natToBytes4 (v : Nat) :
    bytesToNat (natToBytes4 v) = v % 4294967296 := by
  simp only [bytesToNat, natToBytes4, List.foldl]
  omega

theorem bytesToNat_natToBytes2 (v : Nat) :
    bytesToNat (natToBytes2 v) = v % 65536 := by
  simp only [bytesToNat, natToBytes2, List.foldl]
  omega

theorem bytesToNat_single (b : Nat) : bytesToNat [b] = b := by
  simp [bytesToNat]

/-- A tuple encode failure is always the address-family error. -/
theorem Tuple.MarshalAttribute_error (t : Tuple) (c : Nat) (e : Err)
    (h : t.MarshalAttribute c = .error e) : e = .errBadAddressFamily := by
  unfold Tuple.MarshalAttribute at h
  split_ifs at h <;> simp_all

/-- A successful tuple encode carries the requested top-level type code. -/
theorem tupleMarshal_typ (t : Tuple) (c : Nat) (a : Attribute)
    (h : t.MarshalAttribute c = .ok a) : a.typ = c := by
  unfold Tuple.MarshalAttribute at h
  split_ifs at h <;> (try simp_all) <;> (subst h; rfl)

/-- C6: for every protocol, status flags, addresses (of any byte length,
with no validation and no failure possible), ports, timeout and mark,
`NewFlow` returns a Flow with Status.Value, Timeout and Mark set, TupleOrig
built from the given endpoints, TupleReply with source and destination
swapped and the same protocol, and every other field at its zero value. -/
theorem NewFlow_builds_tuples (proto status : Nat) (srcAddr destAddr : List Nat)
    (srcPort destPort timeout mark : Nat) :
    (NewFlow proto status srcAddr destAddr srcPort destPort timeout mark).Status.Value = status ∧
    (NewFlow proto status srcAddr destAddr srcPort destPort timeout mark).Timeout = timeout ∧
    (NewFlow proto status srcAddr destAddr srcPort destPort timeout mark).Mark = mark ∧
    (NewFlow proto status srcAddr destAddr srcPort destPort timeout mark).TupleOrig =
      ⟨⟨srcAddr, destAddr⟩, ⟨proto, srcPort, destPort⟩⟩ ∧
    (NewFlow proto status srcAddr destAddr srcPort destPort timeout mark).TupleReply =
      ⟨⟨destAddr, srcAddr⟩, ⟨proto, destPort, srcPort⟩⟩ ∧
    (NewFlow proto status srcAddr destAddr srcPort destPort timeout mark).ID = 0 ∧
    (NewFlow proto status srcAddr destAddr srcPort destPort timeout mark).Use = 0 ∧
    (NewFlow proto status srcAddr destAddr srcPort destPort timeout mark).Zone = 0 ∧
    (NewFlow proto status srcAddr destAddr srcPort destPort timeout mark).Timestamp = ⟨0, 0⟩ ∧
    (NewFlow proto status srcAddr destAddr srcPort destPort timeout mark).ProtoInfo = ⟨none⟩ ∧
    (NewFlow proto status srcAddr destAddr srcPort destPort timeout mark).Helper = ⟨[], []⟩ ∧
    (NewFlow proto status srcAddr destAddr srcPort destPort timeout mark).CountersOrig = ⟨0, 0⟩ ∧
    (NewFlow proto status srcAddr destAddr srcPort destPort timeout mark).CountersReply = ⟨0, 0⟩ ∧
    (NewFlow proto status srcAddr destAddr srcPort destPort timeout mark).SecurityContext = ⟨[]⟩ ∧
    (NewFlow proto status srcAddr destAddr srcPort destPort timeout mark).TupleMaster = Tuple.empty ∧
    (NewFlow proto status srcAddr destAddr srcPort destPort timeout mark).SeqAdjOrig = ⟨0, 0, 0⟩ ∧
    (NewFlow proto status srcAddr destAddr srcPort destPort timeout mark).SeqAdjReply = ⟨0, 0, 0⟩ ∧
    (NewFlow proto status srcAddr destAddr srcPort destPort timeout mark).Labels = [] ∧
    (NewFlow proto status srcAddr destAddr srcPort destPort timeout mark).LabelsMask = [] ∧
    (NewFlow proto status srcAddr destAddr srcPort destPort timeout mark).SynProxy = ⟨0, [], 0⟩ := by
  and_intros <;> rfl

/-- A concrete filled tuple (10.0.0.1:1234 → 10.0.0.2:80, TCP). -/
def sampleTupleOrig : Tuple := ⟨⟨[10, 0, 0, 1], [10, 0, 0, 2]⟩, ⟨6, 1234, 80⟩⟩

/-- The reply direction of `sampleTupleOrig`. -/
def sampleTupleReply : Tuple := ⟨⟨[10, 0, 0, 2], [10, 0, 0, 1]⟩, ⟨6, 80, 1234⟩⟩

/-- The zero Flow with both tuples set to filled, valid values. -/
def flowWithTuples : Flow :=
  { Flow.empty with TupleOrig := sampleTupleOrig, TupleReply := sampleTupleReply }

/-- The attribute list prescribed by the spec's encode column (section 6):
TupleOrig, TupleReply, then each optional attribute in fixed order, present
exactly when its nonzero/filled predicate holds.  The three fallible tuple
encodes are passed in as already-marshalled attributes. -/
def marshalSpec (f : Flow) (torig trepl tmaster : Attribute) : List Attribute :=
  [torig, trepl]
    ++ (if f.Timeout != 0 then [(Num32.mk f.Timeout).MarshalAttribute CTATimeout] else [])
    ++ (if f.Status.Value != 0 then [f.Status.MarshalAttribute] else [])
    ++ (if f.Mark != 0 then [(Num32.mk f.Mark).MarshalAttribute CTAMark] else [])
    ++ (if f.Zone != 0 then [(Num16.mk f.Zone).MarshalAttribute CTAZone] else [])
    ++ (if f.ProtoInfo.Filled then [f.ProtoInfo.MarshalAttribute] else [])
    ++ (if f.Helper.Filled then [f.Helper.MarshalAttribute] else [])
    ++ (if f.TupleMaster.Filled then [tmaster] else [])
    ++ (if f.SeqAdjOrig.Filled then [f.SeqAdjOrig.MarshalAttribute CTASeqAdjOrig] else [])
    ++ (if f.SeqAdjReply.Filled then [f.SeqAdjReply.MarshalAttribute CTASeqAdjReply] else [])
    ++ (if f.SynProxy.Filled then [f.SynProxy.MarshalAttribute] else [])

theorem list_if_append {α : Type} (c : Prop) [Decidable c] (l : List α) (x : α) :
    (if c then l ++ [x] else l) = l ++ (if c then [x] else []) := by
  split_ifs <;> simp

/-- Shape of a marshal run once both tuples are filled: it either fails
with the error of one of the three tuple encodes, or succeeds with exactly
the spec-prescribed attribute list. -/
theorem Flow.marshal_shape (f : Flow)
    (h1 : f.TupleOrig.Filled = true) (h2 : f.TupleReply.Filled = true) :
    (∃ e, (f.TupleOrig.MarshalAttribute CTATupleOrig = .error e ∨
           f.TupleReply.MarshalAttribute CTATupleReply = .error e ∨
           (f.TupleMaster.Filled = true ∧
             f.TupleMaster.MarshalAttribute CTATupleMaster = .error e)) ∧
          f.marshal = .error e) ∨
    (∃ torig trepl tmaster,
        f.TupleOrig.MarshalAttribute CTATupleOrig = .ok torig ∧
        f.TupleReply.MarshalAttribute CTATupleReply = .ok trepl ∧
        (f.TupleMaster.Filled = true →
          f.TupleMaster.MarshalAttribute CTATupleMaster = .ok tmaster) ∧
        f.marshal = .ok (marshalSpec f torig trepl tmaster)) := by
  rcases hto : f.TupleOrig.MarshalAttribute CTATupleOrig with e | torig
  · exact .inl ⟨e, .inl rfl, by unfold Flow.marshal; simp [h1, h2, hto, Except.map]⟩
  · rcases htr : f.TupleReply.MarshalAttribute CTATupleReply with e | trepl
    · exact .inl ⟨e, .inr (.inl rfl),
        by unfold Flow.marshal; simp [h1, h2, hto, htr, Except.map]⟩
    · by_cases hmf : f.TupleMaster.Filled = true
      · rcases htm : f.TupleMaster.MarshalAttribute CTATupleMaster with e | tm
        · exact .inl ⟨e, .inr (.inr ⟨hmf, rfl⟩),
            by unfold Flow.marshal; simp [h1, h2, hto, htr, hmf, htm, Except.map]⟩
        · refine .inr ⟨torig, trepl, tm, rfl, rfl, fun _ => rfl, ?_⟩
          unfold Flow.marshal
          simp only [h1, h2, hto, htr, hmf, htm, Bool.and_self, Bool.not_true,
            Bool.false_eq_true, if_false, if_true, Except.map]
          simp only [list_if_append]
          simp [marshalSpec, hmf, List.append_assoc]
      · simp only [Bool.not_eq_true] at hmf
        refine .inr ⟨torig, trepl, torig, rfl, rfl, fun hc => by simp [hc] at hmf, ?_⟩
        unfold Flow.marshal
        simp only [h1, h2, hto, htr, hmf, Bool.and_self, Bool.not_true,
          Bool.false_eq_true, if_false, if_true, Except.map]
        simp only [list_if_append]
        simp [marshalSpec, hmf, List.append_assoc]

/-- C4: encode fails with the tuples-required error, emitting nothing, iff
TupleOrig and TupleReply are not both filled; the zero Flow fails with that
error, and the same Flow with both tuples set to filled (valid) values
encodes successfully. -/
theorem marshal_errNeedTuples_iff (f : Flow) :
    (f.marshal = .error .errNeedTuples ↔
      ¬(f.TupleOrig.Filled = true ∧ f.TupleReply.Filled = true)) ∧
    Flow.empty.marshal = .error .errNeedTuples ∧
    flowWithTuples.marshal =
      .ok [Attribute.mk CTATupleOrig []
             [Attribute.mk CTATupleIP []
               [Attribute.mk CTAIPv4Src [10, 0, 0, 1] [],
                Attribute.mk CTAIPv4Dst [10, 0, 0, 2] []],
              Attribute.mk CTATupleProto []
               [Attribute.mk CTAProtoNum [6] [],
                Attribute.mk CTAProtoSrcPort [4, 210] [],
                Attribute.mk CTAProtoDstPort [0, 80] []]],
           Attribute.mk CTATupleReply []
             [Attribute.mk CTATupleIP []
               [Attribute.mk CTAIPv4Src [10, 0, 0, 2] [],
                Attribute.mk CTAIPv4Dst [10, 0, 0, 1] []],
              Attribute.mk CTATupleProto []
               [Attribute.mk CTAProtoNum [6] [],
                Attribute.mk CTAProtoSrcPort [0, 80] [],
                Attribute.mk CTAProtoDstPort [4, 210] []]]] := by
  refine ⟨⟨fun h hc => ?_, fun h => ?_⟩, by rfl, by rfl⟩
  · obtain ⟨h1, h2⟩ := hc
    rcases f.marshal_shape h1 h2 with ⟨e, he, hm⟩ | ⟨torig, trepl, tm, _, _, _, hm⟩
    · rw [hm] at h
      have he' : e = Err.errBadAddressFamily := by
        rcases he with he | he | ⟨_, he⟩ <;> exact Tuple.MarshalAttribute_error _ _ _ he
      simp [he'] at h
    · rw [hm] at h
      exact Except.noConfusion h
  · unfold Flow.marshal
    have hng : (f.TupleOrig.Filled && f.TupleReply.Filled) = false := by
      rcases Bool.eq_false_or_eq_true f.TupleOrig.Filled with h1 | h1 <;>
        rcases Bool.eq_false_or_eq_true f.TupleReply.Filled with h2 | h2 <;>
          simp_all
    rw [hng]
    rfl

/-! ## C5: encode output content and order -/

/-- A marshal that returned a list must have passed the filled-tuples
guard. -/
theorem Flow.marshal_ok_filled (f : Flow) (l : List Attribute)
    (h : f.marshal = .ok l) :
    f.TupleOrig.Filled = true ∧ f.TupleReply.Filled = true := by
  by_cases hg : (f.TupleOrig.Filled && f.TupleReply.Filled) = true
  · simpa using hg
  · exfalso
    unfold Flow.marshal at h
    have hng : (!(f.TupleOrig.Filled && f.TupleReply.Filled)) = true := by
      simp [Bool.eq_false_iff.mpr hg]
    rw [hng] at h
    exact Except.noConfusion h

/-- Everything in a spec-prescribed attribute list is one of the eleven
possible emitted attributes, each optional one under its own guard. -/
theorem mem_marshalSpec (f : Flow) (torig trepl tmaster a : Attribute)
    (ha : a ∈ marshalSpec f torig trepl tmaster) :
    a = torig ∨ a = trepl ∨
    a = (Num32.mk f.Timeout).MarshalAttribute CTATimeout ∨
    a = f.Status.MarshalAttribute ∨
    a = (Num32.mk f.Mark).MarshalAttribute CTAMark ∨
    a = (Num16.mk f.Zone).MarshalAttribute CTAZone ∨
    a = f.ProtoInfo.MarshalAttribute ∨
    a = f.Helper.MarshalAttribute ∨
    (f.TupleMaster.Filled = true ∧ a = tmaster) ∨
    a = f.SeqAdjOrig.MarshalAttribute CTASeqAdjOrig ∨
    a = f.SeqAdjReply.MarshalAttribute CTASeqAdjReply ∨
    a = f.SynProxy.MarshalAttribute := by
  have hif : ∀ (c : Prop) (inst : Decidable c) (x : Attribute),
      a ∈ (if c then [x] else ([] : List Attribute)) → c ∧ a = x := by
    intro c inst x hx
    split_ifs at hx <;> simp_all
  unfold marshalSpec at ha
  simp only [List.mem_append] at ha
  rcases ha with ((((((((((ha | ha) | ha) | ha) | ha) | ha) | ha) | ha) | ha) | ha) | ha)
  · simp only [List.mem_cons, List.not_mem_nil, or_false] at ha
    rcases ha with rfl | rfl
    · exact .inl rfl
    · exact .inr (.inl rfl)
  · exact .inr (.inr (.inl (hif _ _ _ ha).2))
  · exact .inr (.inr (.inr (.inl (hif _ _ _ ha).2)))
  · exact .inr (.inr (.inr (.inr (.inl (hif _ _ _ ha).2))))
  · exact .inr (.inr (.inr (.inr (.inr (.inl (hif _ _ _ ha).2)))))
  · exact .inr (.inr (.inr (.inr (.inr (.inr (.inl (hif _ _ _ ha).2))))))
  · exact .inr (.inr (.inr (.inr (.inr (.inr (.inr (.inl (hif _ _ _ ha).2)))))))
  · exact .inr (.inr (.inr (.inr (.inr (.inr (.inr (.inr (.inl (hif _ _ _ ha)))))))))
  · exact .inr (.inr (.inr (.inr (.inr (.inr (.inr (.inr (.inr (.inl (hif _ _ _ ha).2)))))))))
  · exact .inr (.inr (.inr (.inr (.inr (.inr (.inr (.inr (.inr (.inr (.inl (hif _ _ _ ha).2))))))))))
  · exact .inr (.inr (.inr (.inr (.inr (.inr (.inr (.inr (.inr (.inr (.inr (hif _ _ _ ha).2))))))))))

/-- A ProtoInfo encode always carries the CTA_PROTOINFO type code. -/
theorem protoInfoMarshal_typ (p : ProtoInfo) :
    p.MarshalAttribute.typ = CTAProtoInfo := by
  rcases p with ⟨_ | v⟩
  · rfl
  · rcases v <;> rfl

theorem num32Marshal_typ (n : Num32) (t : Nat) :
    (n.MarshalAttribute t).typ = t := rfl

theorem num16Marshal_typ (n : Num16) (t : Nat) :
    (n.MarshalAttribute t).typ = t := rfl

theorem statusMarshal_typ (s : Status) :
    s.MarshalAttribute.typ = CTAStatus := rfl

theorem helperMarshal_typ (h : Helper) :
    h.MarshalAttribute.typ = CTAHelp := rfl

theorem seqAdjMarshal_typ (s : SequenceAdjust) (t : Nat) :
    (s.MarshalAttribute t).typ = t := rfl

theorem synProxyMarshal_typ (s : SynProxy) :
    s.MarshalAttribute.typ = CTASynProxy := rfl

/-- C5: when encode succeeds, the produced list is exactly TupleOrig,
TupleReply, then the conditional optional attributes in the fixed source
order, and no attribute for ID, Use, Labels, LabelsMask, CountersOrig,
CountersReply, SecurityContext or Timestamp ever appears. -/
theorem marshal_order (f : Flow) (l : List Attribute) (h : f.marshal = .ok l) :
    (∃ torig trepl tmaster,
        f.TupleOrig.MarshalAttribute CTATupleOrig = .ok torig ∧
        torig.typ = CTATupleOrig ∧
        f.TupleReply.MarshalAttribute CTATupleReply = .ok trepl ∧
        trepl.typ = CTATupleReply ∧
        (f.TupleMaster.Filled = true →
          f.TupleMaster.MarshalAttribute CTATupleMaster = .ok tmaster ∧
          tmaster.typ = CTATupleMaster) ∧
        l = marshalSpec f torig trepl tmaster) ∧
    ∀ a ∈ l, a.typ ≠ CTAID ∧ a.typ ≠ CTAUse ∧ a.typ ≠ CTALabels ∧
      a.typ ≠ CTALabelsMask ∧ a.typ ≠ CTACountersOrig ∧ a.typ ≠ CTACountersReply ∧
      a.typ ≠ CTASecCtx ∧ a.typ ≠ CTATimestamp := by
  obtain ⟨h1, h2⟩ := f.marshal_ok_filled l h
  rcases f.marshal_shape h1 h2 with ⟨e, _, hm⟩ | ⟨torig, trepl, tm, hto, htr, htm, hm⟩
  · rw [hm] at h; exact Except.noConfusion h
  · rw [hm] at h
    have hl : l = marshalSpec f torig trepl tm := (Except.ok.inj h).symm
    have htypo := tupleMarshal_typ _ _ _ hto
    have htypr := tupleMarshal_typ _ _ _ htr
    refine ⟨⟨torig, trepl, tm, hto, htypo, htr, htypr,
      fun hc => ⟨htm hc, tupleMarshal_typ _ _ _ (htm hc)⟩, hl⟩, ?_⟩
    intro a ha
    rw [hl] at ha
    have hmem := mem_marshalSpec f torig trepl tm a ha
    have htm' : f.TupleMaster.Filled = true → tm.typ = CTATupleMaster := by
      intro hc
      exact tupleMarshal_typ _ _ _ (htm hc)
    rcases hmem with rfl | rfl | rfl | rfl | rfl | rfl | rfl | rfl | ⟨hmf, rfl⟩ | rfl | rfl | rfl <;>
      simp_all [num32Marshal_typ, num16Marshal_typ,
        statusMarshal_typ, helperMarshal_typ,
        seqAdjMarshal_typ, synProxyMarshal_typ,
        protoInfoMarshal_typ,
        CTATupleOrig, CTATupleReply, CTATimeout, CTAStatus, CTAMark, CTAZone,
        CTAProtoInfo, CTAHelp, CTATupleMaster, CTASeqAdjOrig, CTASeqAdjReply,
        CTASynProxy, CTAID, CTAUse, CTALabels, CTALabelsMask,
        CTACountersOrig, CTACountersReply, CTASecCtx, CTATimestamp]

/-- The attribute list `flowWithTuples` encodes to. -/
def sampleMarshalled : List Attribute :=
  [Attribute.mk CTATupleOrig []
     [Attribute.mk CTATupleIP []
       [Attribute.mk CTAIPv4Src [10, 0, 0, 1] [],
        Attribute.mk CTAIPv4Dst [10, 0, 0, 2] []],
      Attribute.mk CTATupleProto []
       [Attribute.mk CTAProtoNum [6] [],
        Attribute.mk CTAProtoSrcPort [4, 210] [],
        Attribute.mk CTAProtoDstPort [0, 80] []]],
   Attribute.mk CTATupleReply []
     [Attribute.mk CTATupleIP []
       [Attribute.mk CTAIPv4Src [10, 0, 0, 2] [],
        Attribute.mk CTAIPv4Dst [10, 0, 0, 1] []],
      Attribute.mk CTATupleProto []
       [Attribute.mk CTAProtoNum [6] [],
        Attribute.mk CTAProtoSrcPort [0, 80] [],
        Attribute.mk CTAProtoDstPort [4, 210] []]]]

theorem marshal_order_witness :
    Flow.marshal flowWithTuples = .ok sampleMarshalled ∧
    ((∃ torig trepl tmaster,
        flowWithTuples.TupleOrig.MarshalAttribute CTATupleOrig = .ok torig ∧
        torig.typ = CTATupleOrig ∧
        flowWithTuples.TupleReply.MarshalAttribute CTATupleReply = .ok trepl ∧
        trepl.typ = CTATupleReply ∧
        (flowWithTuples.TupleMaster.Filled = true →
          flowWithTuples.TupleMaster.MarshalAttribute CTATupleMaster = .ok tmaster ∧
          tmaster.typ = CTATupleMaster) ∧
        sampleMarshalled = marshalSpec flowWithTuples torig trepl tmaster) ∧
      ∀ a ∈ sampleMarshalled, a.typ ≠ CTAID ∧ a.typ ≠ CTAUse ∧ a.typ ≠ CTALabels ∧
        a.typ ≠ CTALabelsMask ∧ a.typ ≠ CTACountersOrig ∧ a.typ ≠ CTACountersReply ∧
        a.typ ≠ CTASecCtx ∧ a.typ ≠ CTATimestamp) :=
  ⟨rfl, marshal_order flowWithTuples sampleMarshalled rfl⟩

/-! ## C3: decode is all-or-nothing -/

/-- C3: when decoding an attribute sequence fails, the per-message decode
returns only that error: no Flow — partial or otherwise — is handed to the
caller as a success value. -/
theorem unmarshalFlow_error_no_flow (attrs : List Attribute) (e : Err)
    (h : Flow.empty.unmarshal attrs = .error e) :
    unmarshalFlow ⟨.ok attrs⟩ = .error e ∧
    ∀ g : Flow, unmarshalFlow ⟨.ok attrs⟩ ≠ .ok g := by
  constructor
  · simp [unmarshalFlow, UnmarshalNetlink, h]
  · intro g hg
    simp [unmarshalFlow, UnmarshalNetlink, h] at hg

/-- An attribute whose type code (99) is outside the known set. -/
def unknownAttr99 : Attribute := .mk 99 [] []

theorem unmarshalFlow_error_no_flow_witness :
    Flow.empty.unmarshal [unknownAttr99] = .error (.errAttributeUnknown 99) ∧
    (unmarshalFlow ⟨.ok [unknownAttr99]⟩ = .error (.errAttributeUnknown 99) ∧
     ∀ g : Flow, unmarshalFlow ⟨.ok [unknownAttr99]⟩ ≠ .ok g) :=
  ⟨rfl, unmarshalFlow_error_no_flow [unknownAttr99] (.errAttributeUnknown 99) rfl⟩

/-! ## C8 and C9: batch conversion -/

/-- C8: when every message decodes, the batch returns exactly as many Flows
as messages, the i-th Flow being the decode of the i-th message. -/
theorem unmarshalFlows_ok (ms : List Message)
    (h : ∀ m ∈ ms, (unmarshalFlow m).toBool = true) :
    ∃ fs, unmarshalFlows ms = .ok fs ∧ fs.length = ms.length ∧
      List.Forall₂ (fun m g => unmarshalFlow m = .ok g) ms fs := by
  induction ms with
  | nil => exact ⟨[], rfl, rfl, .nil⟩
  | cons m rest ih =>
    have hm := h m (List.mem_cons_self m rest)
    rcases hm' : unmarshalFlow m with e | f
    · rw [hm'] at hm
      simp [Except.toBool] at hm
    · obtain ⟨fs, hfs, hlen, hall⟩ := ih fun x hx => h x (List.mem_cons_of_mem _ hx)
      refine ⟨f :: fs, ?_, by simp [hlen], .cons hm' hall⟩
      simp [unmarshalFlows, hm', hfs]

/-- A message that decodes to the zero Flow. -/
def sampleMsg1 : Message := ⟨.ok []⟩

/-- A message that decodes to a Flow with Timeout 5. -/
def sampleMsg2 : Message := ⟨.ok [Attribute.mk CTATimeout [0, 0, 0, 5] []]⟩

/-- A message whose decode fails on an unknown attribute type. -/
def badMsg : Message := ⟨.ok [unknownAttr99]⟩

theorem unmarshalFlows_ok_witness :
    (∀ m ∈ ([sampleMsg1, sampleMsg2] : List Message),
      (unmarshalFlow m).toBool = true) ∧
    (∃ fs, unmarshalFlows [sampleMsg1, sampleMsg2] = .ok fs ∧
      fs.length = ([sampleMsg1, sampleMsg2] : List Message).length ∧
      List.Forall₂ (fun m g => unmarshalFlow m = .ok g) [sampleMsg1, sampleMsg2] fs) :=
  ⟨by
    intro m hm
    simp only [List.mem_cons, List.not_mem_nil, or_false] at hm
    rcases hm with rfl | rfl <;> rfl,
   unmarshalFlows_ok [sampleMsg1, sampleMsg2] (by
    intro m hm
    simp only [List.mem_cons, List.not_mem_nil, or_false] at hm
    rcases hm with rfl | rfl <;> rfl)⟩

/-- C9: when some message fails to decode and all messages before it
decode, the batch returns no Flows at all, just that message's error. -/
theorem unmarshalFlows_first_error (pre : List Message) (m : Message)
    (post : List Message) (e : Err)
    (hpre : ∀ x ∈ pre, (unmarshalFlow x).toBool = true)
    (hm : unmarshalFlow m = .error e) :
    unmarshalFlows (pre ++ m :: post) = .error e := by
  induction pre with
  | nil => simp [unmarshalFlows, hm]
  | cons p rest ih =>
    have hp := hpre p (List.mem_cons_self p rest)
    rcases hp' : unmarshalFlow p with e' | f
    · rw [hp'] at hp
      simp [Except.toBool] at hp
    · have hrest := ih fun x hx => hpre x (List.mem_cons_of_mem _ hx)
      simp [unmarshalFlows, hp', hrest]

theorem unmarshalFlows_first_error_witness :
    (∀ x ∈ ([sampleMsg1] : List Message), (unmarshalFlow x).toBool = true) ∧
    unmarshalFlow badMsg = .error (.errAttributeUnknown 99) ∧
    unmarshalFlows ([sampleMsg1] ++ badMsg :: [sampleMsg2]) =
      .error (.errAttributeUnknown 99) :=
  ⟨by
    intro x hx
    simp only [List.mem_cons, List.not_mem_nil, or_false] at hx
    rcases hx with rfl <;> rfl,
   rfl,
   unmarshalFlows_first_error [sampleMsg1] badMsg [sampleMsg2]
     (.errAttributeUnknown 99)
     (by
      intro x hx
      simp only [List.mem_cons, List.not_mem_nil, or_false] at hx
      rcases hx with rfl <;> rfl)
     rfl⟩

/-! ## C10: duplicate scalar attributes, last occurrence wins -/

/-- Splitting an unmarshal run over an append. -/
theorem Flow.unmarshal_append (f : Flow) (l₁ l₂ : List Attribute) :
    f.unmarshal (l₁ ++ l₂) =
      match f.unmarshal l₁ with
      | .error e => .error e
      | .ok g => g.unmarshal l₂ := by
  induction l₁ generalizing f with
  | nil => simp [Flow.unmarshal]
  | cons a rest ih =>
    simp only [List.cons_append, Flow.unmarshal]
    cases f.unmarshalAttribute a <;> simp [ih]

/-- C10: several attributes sharing a known scalar type code are not an
error; each occurrence overwrites the field, so the last one in input order
determines the decoded value (shown for TIMEOUT and MARK duplicates). -/
theorem unmarshal_duplicate_last_wins (f g : Flow) (l : List Attribute)
    (a b : Attribute) (hl : f.unmarshal l = .ok g) :
    (a.typ = CTATimeout → b.typ = CTATimeout →
      f.unmarshal (l ++ [a, b]) = .ok { g with Timeout := b.Uint32 }) ∧
    (a.typ = CTAMark → b.typ = CTAMark →
      f.unmarshal (l ++ [a, b]) = .ok { g with Mark := b.Uint32 }) := by
  constructor <;> intro ha hb <;>
    (rw [Flow.unmarshal_append, hl]
     simp [Flow.unmarshal, Flow.unmarshalAttribute, ha, hb,
       CTATimeout, CTAID, CTAUse, CTAMark])

theorem unmarshal_duplicate_last_wins_witness :
    Flow.empty.unmarshal [] = .ok Flow.empty ∧
    (((Attribute.mk CTATimeout [0, 0, 0, 5] []).typ = CTATimeout →
      (Attribute.mk CTATimeout [0, 0, 0, 9] []).typ = CTATimeout →
      Flow.empty.unmarshal
          ([] ++ [Attribute.mk CTATimeout [0, 0, 0, 5] [],
                  Attribute.mk CTATimeout [0, 0, 0, 9] []]) =
        .ok { Flow.empty with
              Timeout := (Attribute.mk CTATimeout [0, 0, 0, 9] []).Uint32 }) ∧
     ((Attribute.mk CTATimeout [0, 0, 0, 5] []).typ = CTAMark →
      (Attribute.mk CTATimeout [0, 0, 0, 9] []).typ = CTAMark →
      Flow.empty.unmarshal
          ([] ++ [Attribute.mk CTATimeout [0, 0, 0, 5] [],
                  Attribute.mk CTATimeout [0, 0, 0, 9] []]) =
        .ok { Flow.empty with
              Mark := (Attribute.mk CTATimeout [0, 0, 0, 9] []).Uint32 })) :=
  ⟨rfl, unmarshal_duplicate_last_wins Flow.empty Flow.empty []
    (Attribute.mk CTATimeout [0, 0, 0, 5] [])
    (Attribute.mk CTATimeout [0, 0, 0, 9] []) rfl⟩

/-! ## C2: unknown attribute types -/

/-- The known top-level attribute type codes, in the dispatch order of the
source's switch. -/
def knownTypes : List Nat :=
  [CTATimeout, CTAID, CTAUse, CTAMark, CTAZone, CTALabels, CTALabelsMask,
   CTATupleOrig, CTATupleReply, CTATupleMaster, CTAStatus, CTAProtoInfo,
   CTAHelp, CTACountersOrig, CTACountersReply, CTASecCtx, CTATimestamp,
   CTASeqAdjOrig, CTASeqAdjReply, CTASynProxy]

/-- Dispatching an attribute whose type is outside the known set hits the
default case: the unknown-attribute error carrying that code. -/
theorem Flow.unmarshalAttribute_unknown (f : Flow) (a : Attribute)
    (h : a.typ ∉ knownTypes) :
    f.unmarshalAttribute a = .error (.errAttributeUnknown a.typ) := by
  simp only [knownTypes, List.mem_cons, List.not_mem_nil, or_false, not_or] at h
  obtain ⟨h1, h2, h3, h4, h5, h6, h7, h8, h9, h10,
          h11, h12, h13, h14, h15, h16, h17, h18, h19, h20⟩ := h
  unfold Flow.unmarshalAttribute
  simp [h1, h2, h3, h4, h5, h6, h7, h8, h9, h10,
        h11, h12, h13, h14, h15, h16, h17, h18, h19, h20]

/-- A sequence containing an unknown-typed attribute never decodes. -/
theorem Flow.unmarshal_unknown_mem_fails (l : List Attribute) (u : Attribute)
    (hu : u.typ ∉ knownTypes) :
    ∀ f : Flow, u ∈ l → (f.unmarshal l).toBool = false := by
  induction l with
  | nil => intro f hm; exact absurd hm (List.not_mem_nil u)
  | cons a rest ih =>
    intro f hm
    rcases List.mem_cons.mp hm with rfl | hm'
    · rw [Flow.unmarshal, Flow.unmarshalAttribute_unknown f u hu]
      rfl
    · rw [Flow.unmarshal]
      cases ha : f.unmarshalAttribute a with
      | error e => rfl
      | ok g => exact ih g hm'

/-- C2 (amended): a sequence containing an unknown-typed attribute always
fails to decode; when every attribute before the unknown one decodes
successfully, the error is the unknown-attribute error carrying that
attribute's code, wherever it sits and whatever follows it. -/
theorem unmarshal_unknown_rejected (f g : Flow) (pre post l : List Attribute)
    (u : Attribute) (hu : u.typ ∉ knownTypes) :
    (u ∈ l → (f.unmarshal l).toBool = false) ∧
    (f.unmarshal pre = .ok g →
      f.unmarshal (pre ++ u :: post) = .error (.errAttributeUnknown u.typ)) := by
  constructor
  · exact fun hm => Flow.unmarshal_unknown_mem_fails l u hu f hm
  · intro hpre
    rw [Flow.unmarshal_append, hpre]
    show Flow.unmarshal g (u :: post) = _
    simp only [Flow.unmarshal, Flow.unmarshalAttribute_unknown g u hu]

/-- A known-typed attribute with a malformed payload. -/
def badTupleAttr : Attribute := .mk CTATupleOrig [] []

/-- C2 counterexample: with a malformed known attribute before the unknown
one, decode fails with the malformed-value error of the earlier attribute,
not with the unknown-attribute error carrying the unknown code. -/
theorem unmarshal_unknown_counterexample :
    (99 : Nat) ∉ knownTypes ∧
    Flow.empty.unmarshal [badTupleAttr, unknownAttr99] =
      .error (.errMalformed "tuple") ∧
    Flow.empty.unmarshal [badTupleAttr, unknownAttr99] ≠
      .error (.errAttributeUnknown 99) := by
  refine ⟨by decide, rfl, fun h => ?_⟩
  rw [show Flow.empty.unmarshal [badTupleAttr, unknownAttr99] =
        .error (.errMalformed "tuple") from rfl] at h
  simp at h

/-- A TIMEOUT attribute carrying the value 5. -/
def timeoutAttr5 : Attribute := .mk CTATimeout [0, 0, 0, 5] []

/-- A MARK attribute carrying the value 7. -/
def markAttr7 : Attribute := .mk CTAMark [0, 0, 0, 7] []

/-- The zero Flow with Timeout 5. -/
def flowT5 : Flow := { Flow.empty with Timeout := 5 }

theorem unmarshal_unknown_rejected_witness :
    unknownAttr99.typ ∉ knownTypes ∧
    ((unknownAttr99 ∈ ([timeoutAttr5, unknownAttr99] : List Attribute) →
      (Flow.empty.unmarshal [timeoutAttr5, unknownAttr99]).toBool = false) ∧
     (Flow.empty.unmarshal [timeoutAttr5] = .ok flowT5 →
      Flow.empty.unmarshal ([timeoutAttr5] ++ unknownAttr99 :: [markAttr7]) =
        .error (.errAttributeUnknown unknownAttr99.typ))) :=
  ⟨by decide,
   unmarshal_unknown_rejected Flow.empty flowT5 [timeoutAttr5] [markAttr7]
     [timeoutAttr5, unknownAttr99] unknownAttr99 (by decide)⟩

/-! ## C7: dependence of decode on attribute order -/

/-- The flow produced by dispatching one attribute, ignoring failures. -/
def applyA (f : Flow) (a : Attribute) : Flow :=
  match f.unmarshalAttribute a with
  | .ok g => g
  | .error _ => f

/-- Whether one attribute dispatches without error (on any state). -/
def attrOk (a : Attribute) : Bool :=
  (Flow.empty.unmarshalAttribute a).toBool

/-! Per-code shape of the dispatch, with the type code concrete. -/

theorem dispatch_timeout (f : Flow) (d : List Nat) (c : List Attribute) :
    f.unmarshalAttribute (.mk CTATimeout d c) =
      .ok { f with Timeout := (Attribute.mk CTATimeout d c).Uint32 } := rfl

theorem dispatch_id (f : Flow) (d : List Nat) (c : List Attribute) :
    f.unmarshalAttribute (.mk CTAID d c) =
      .ok { f with ID := (Attribute.mk CTAID d c).Uint32 } := rfl

theorem dispatch_use (f : Flow) (d : List Nat) (c : List Attribute) :
    f.unmarshalAttribute (.mk CTAUse d c) =
      .ok { f with Use := (Attribute.mk CTAUse d c).Uint32 } := rfl

theorem dispatch_mark (f : Flow) (d : List Nat) (c : List Attribute) :
    f.unmarshalAttribute (.mk CTAMark d c) =
      .ok { f with Mark := (Attribute.mk CTAMark d c).Uint32 } := rfl

theorem dispatch_zone (f : Flow) (d : List Nat) (c : List Attribute) :
    f.unmarshalAttribute (.mk CTAZone d c) =
      .ok { f with Zone := (Attribute.mk CTAZone d c).Uint16 } := rfl

theorem dispatch_labels (f : Flow) (d : List Nat) (c : List Attribute) :
    f.unmarshalAttribute (.mk CTALabels d c) = .ok { f with Labels := d } := rfl

theorem dispatch_labelsMask (f : Flow) (d : List Nat) (c : List Attribute) :
    f.unmarshalAttribute (.mk CTALabelsMask d c) =
      .ok { f with LabelsMask := d } := rfl

theorem dispatch_status (f : Flow) (d : List Nat) (c : List Attribute) :
    f.unmarshalAttribute (.mk CTAStatus d c) =
      .ok { f with Status := ⟨bytesToNat d⟩ } := rfl

theorem dispatch_tupleOrig (f : Flow) (d : List Nat) (c : List Attribute) :
    f.unmarshalAttribute (.mk CTATupleOrig d c) =
      match Tuple.UnmarshalAttribute (.mk CTATupleOrig d c) with
      | .ok t => .ok { f with TupleOrig := t }
      | .error e => .error e := by
  cases h : Tuple.UnmarshalAttribute (.mk CTATupleOrig d c) <;>
    (unfold Flow.unmarshalAttribute; rw [h]; rfl)

theorem dispatch_tupleReply (f : Flow) (d : List Nat) (c : List Attribute) :
    f.unmarshalAttribute (.mk CTATupleReply d c) =
      match Tuple.UnmarshalAttribute (.mk CTATupleReply d c) with
      | .ok t => .ok { f with TupleReply := t }
      | .error e => .error e := by
  cases h : Tuple.UnmarshalAttribute (.mk CTATupleReply d c) <;>
    (unfold Flow.unmarshalAttribute; rw [h]; rfl)

theorem dispatch_tupleMaster (f : Flow) (d : List Nat) (c : List Attribute) :
    f.unmarshalAttribute (.mk CTATupleMaster d c) =
      match Tuple.UnmarshalAttribute (.mk CTATupleMaster d c) with
      | .ok t => .ok { f with TupleMaster := t }
      | .error e => .error e := by
  cases h : Tuple.UnmarshalAttribute (.mk CTATupleMaster d c) <;>
    (unfold Flow.unmarshalAttribute; rw [h]; rfl)

theorem dispatch_protoInfo (f : Flow) (d : List Nat) (c : List Attribute) :
    f.unmarshalAttribute (.mk CTAProtoInfo d c) =
      match ProtoInfo.UnmarshalAttribute (.mk CTAProtoInfo d c) with
      | .ok p => .ok { f with ProtoInfo := p }
      | .error e => .error e := by
  cases h : ProtoInfo.UnmarshalAttribute (.mk CTAProtoInfo d c) <;>
    (unfold Flow.unmarshalAttribute; rw [h]; rfl)

theorem dispatch_help (f : Flow) (d : List Nat) (c : List Attribute) :
    f.unmarshalAttribute (.mk CTAHelp d c) =
      match Helper.UnmarshalAttribute (.mk CTAHelp d c) with
      | .ok h => .ok { f with Helper := h }
      | .error e => .error e := by
  cases h : Helper.UnmarshalAttribute (.mk CTAHelp d c) <;>
    (unfold Flow.unmarshalAttribute; rw [h]; rfl)

theorem dispatch_countersOrig (f : Flow) (d : List Nat) (c : List Attribute) :
    f.unmarshalAttribute (.mk CTACountersOrig d c) =
      match Counter.UnmarshalAttribute (.mk CTACountersOrig d c) with
      | .ok x => .ok { f with CountersOrig := x }
      | .error e => .error e := by
  cases h : Counter.UnmarshalAttribute (.mk CTACountersOrig d c) <;>
    (unfold Flow.unmarshalAttribute; rw [h]; rfl)

theorem dispatch_countersReply (f : Flow) (d : List Nat) (c : List Attribute) :
    f.unmarshalAttribute (.mk CTACountersReply d c) =
      match Counter.UnmarshalAttribute (.mk CTACountersReply d c) with
      | .ok x => .ok { f with CountersReply := x }
      | .error e => .error e := by
  cases h : Counter.UnmarshalAttribute (.mk CTACountersReply d c) <;>
    (unfold Flow.unmarshalAttribute; rw [h]; rfl)

theorem dispatch_secCtx (f : Flow) (d : List Nat) (c : List Attribute) :
    f.unmarshalAttribute (.mk CTASecCtx d c) =
      match Security.UnmarshalAttribute (.mk CTASecCtx d c) with
      | .ok s => .ok { f with SecurityContext := s }
      | .error e => .error e := by
  cases h : Security.UnmarshalAttribute (.mk CTASecCtx d c) <;>
    (unfold Flow.unmarshalAttribute; rw [h]; rfl)

theorem dispatch_timestamp (f : Flow) (d : List Nat) (c : List Attribute) :
    f.unmarshalAttribute (.mk CTATimestamp d c) =
      match Timestamp.UnmarshalAttribute (.mk CTATimestamp d c) with
      | .ok t => .ok { f with Timestamp := t }
      | .error e => .error e := by
  cases h : Timestamp.UnmarshalAttribute (.mk CTATimestamp d c) <;>
    (unfold Flow.unmarshalAttribute; rw [h]; rfl)

theorem dispatch_seqAdjOrig (f : Flow) (d : List Nat) (c : List Attribute) :
    f.unmarshalAttribute (.mk CTASeqAdjOrig d c) =
      match SequenceAdjust.UnmarshalAttribute (.mk CTASeqAdjOrig d c) with
      | .ok s => .ok { f with SeqAdjOrig := s }
      | .error e => .error e := by
  cases h : SequenceAdjust.UnmarshalAttribute (.mk CTASeqAdjOrig d c) <;>
    (unfold Flow.unmarshalAttribute; rw [h]; rfl)

theorem dispatch_seqAdjReply (f : Flow) (d : List Nat) (c : List Attribute) :
    f.unmarshalAttribute (.mk CTASeqAdjReply d c) =
      match SequenceAdjust.UnmarshalAttribute (.mk CTASeqAdjReply d c) with
      | .ok s => .ok { f with SeqAdjReply := s }
      | .error e => .error e := by
  cases h : SequenceAdjust.UnmarshalAttribute (.mk CTASeqAdjReply d c) <;>
    (unfold Flow.unmarshalAttribute; rw [h]; rfl)

theorem dispatch_synProxy (f : Flow) (d : List Nat) (c : List Attribute) :
    f.unmarshalAttribute (.mk CTASynProxy d c) =
      match SynProxy.UnmarshalAttribute (.mk CTASynProxy d c) with
      | .ok s => .ok { f with SynProxy := s }
      | .error e => .error e := by
  cases h : SynProxy.UnmarshalAttribute (.mk CTASynProxy d c) <;>
    (unfold Flow.unmarshalAttribute; rw [h]; rfl)

/-- Whether a dispatch fails, and with which error, does not depend on the
flow being filled in: it is a function of the attribute alone. -/
theorem unmarshalAttribute_error_indep (f f' : Flow) (a : Attribute) (e : Err) :
    f.unmarshalAttribute a = .error e ↔ f'.unmarshalAttribute a = .error e := by
  by_cases hk : a.typ ∈ knownTypes
  case neg =>
    rw [Flow.unmarshalAttribute_unknown f a hk, Flow.unmarshalAttribute_unknown f' a hk]
  case pos =>
    obtain ⟨ta, da, ca⟩ := a
    simp only [Attribute.typ, knownTypes, List.mem_cons, List.not_mem_nil,
      or_false] at hk
    rcases hk with rfl | rfl | rfl | rfl | rfl | rfl | rfl | rfl | rfl | rfl |
      rfl | rfl | rfl | rfl | rfl | rfl | rfl | rfl | rfl | rfl <;>
      simp only [dispatch_timeout, dispatch_id, dispatch_use, dispatch_mark,
        dispatch_zone, dispatch_labels, dispatch_labelsMask, dispatch_status,
        dispatch_tupleOrig, dispatch_tupleReply, dispatch_tupleMaster,
        dispatch_protoInfo, dispatch_help, dispatch_countersOrig,
        dispatch_countersReply, dispatch_secCtx, dispatch_timestamp,
        dispatch_seqAdjOrig, dispatch_seqAdjReply, dispatch_synProxy] <;>
      first
        | simp
        | ((repeat' split) <;> simp_all)

theorem unmarshalAttribute_ok_of_attrOk (f : Flow) (a : Attribute)
    (h : attrOk a = true) : f.unmarshalAttribute a = .ok (applyA f a) := by
  unfold applyA
  cases hf : f.unmarshalAttribute a with
  | ok g => rfl
  | error e =>
    have he := (unmarshalAttribute_error_indep f Flow.empty a e).mp hf
    unfold attrOk at h
    rw [he] at h
    exact absurd h (by simp [Except.toBool])

theorem unmarshalAttribute_error_of_not_attrOk (f : Flow) (a : Attribute)
    (h : attrOk a = false) : ∃ e, f.unmarshalAttribute a = .error e := by
  cases hf : f.unmarshalAttribute a with
  | error e => exact ⟨e, rfl⟩
  | ok g =>
    exfalso
    cases he : Flow.empty.unmarshalAttribute a with
    | error e =>
      have := (unmarshalAttribute_error_indep Flow.empty f a e).mp he
      rw [this] at hf
      exact Except.noConfusion hf
    | ok g' =>
      unfold attrOk at h
      rw [he] at h
      exact absurd h (by simp [Except.toBool])

/-- When every attribute dispatches, decode is the fold of `applyA`. -/
theorem unmarshal_eq_foldl (l : List Attribute) : ∀ f : Flow,
    (∀ a ∈ l, attrOk a = true) → Flow.unmarshal f l = .ok (l.foldl applyA f) := by
  induction l with
  | nil => intro f _; rfl
  | cons a rest ih =>
    intro f h
    simp only [Flow.unmarshal, List.foldl_cons]
    rw [unmarshalAttribute_ok_of_attrOk f a (h a (List.mem_cons_self a rest))]
    exact ih (applyA f a) fun x hx => h x (List.mem_cons_of_mem _ hx)

/-- Decode succeeds exactly when every attribute dispatches. -/
theorem unmarshal_toBool_eq_all (l : List Attribute) : ∀ f : Flow,
    (Flow.unmarshal f l).toBool = l.all attrOk := by
  induction l with
  | nil => intro f; rfl
  | cons a rest ih =>
    intro f
    simp only [Flow.unmarshal, List.all_cons]
    cases hb : attrOk a
    · obtain ⟨e, he⟩ := unmarshalAttribute_error_of_not_attrOk f a hb
      rw [he]
      rfl
    · rw [unmarshalAttribute_ok_of_attrOk f a hb]
      show (Flow.unmarshal (applyA f a) rest).toBool = _
      rw [ih (applyA f a)]
      simp

/-- An unknown-typed attribute leaves the flow unchanged. -/
theorem applyA_unknown_id (f : Flow) (a : Attribute) (h : a.typ ∉ knownTypes) :
    applyA f a = f := by
  unfold applyA
  rw [Flow.unmarshalAttribute_unknown f a h]

/-! Per-code shape of `applyA`, with the type code concrete. -/

theorem applyA_timeout (f : Flow) (d : List Nat) (c : List Attribute) :
    applyA f (.mk CTATimeout d c) =
      { f with Timeout := (Attribute.mk CTATimeout d c).Uint32 } := rfl

theorem applyA_id (f : Flow) (d : List Nat) (c : List Attribute) :
    applyA f (.mk CTAID d c) =
      { f with ID := (Attribute.mk CTAID d c).Uint32 } := rfl

theorem applyA_use (f : Flow) (d : List Nat) (c : List Attribute) :
    applyA f (.mk CTAUse d c) =
      { f with Use := (Attribute.mk CTAUse d c).Uint32 } := rfl

theorem applyA_mark (f : Flow) (d : List Nat) (c : List Attribute) :
    applyA f (.mk CTAMark d c) =
      { f with Mark := (Attribute.mk CTAMark d c).Uint32 } := rfl

theorem applyA_zone (f : Flow) (d : List Nat) (c : List Attribute) :
    applyA f (.mk CTAZone d c) =
      { f with Zone := (Attribute.mk CTAZone d c).Uint16 } := rfl

theorem applyA_labels (f : Flow) (d : List Nat) (c : List Attribute) :
    applyA f (.mk CTALabels d c) = { f with Labels := d } := rfl

theorem applyA_labelsMask (f : Flow) (d : List Nat) (c : List Attribute) :
    applyA f (.mk CTALabelsMask d c) = { f with LabelsMask := d } := rfl

theorem applyA_status (f : Flow) (d : List Nat) (c : List Attribute) :
    applyA f (.mk CTAStatus d c) = { f with Status := ⟨bytesToNat d⟩ } := rfl

theorem applyA_tupleOrig (f : Flow) (d : List Nat) (c : List Attribute) :
    applyA f (.mk CTATupleOrig d c) =
      match Tuple.UnmarshalAttribute (.mk CTATupleOrig d c) with
      | .ok t => { f with TupleOrig := t }
      | .error _ => f := by
  unfold applyA
  rw [dispatch_tupleOrig]
  cases Tuple.UnmarshalAttribute (.mk CTATupleOrig d c) <;> rfl

theorem applyA_tupleReply (f : Flow) (d : List Nat) (c : List Attribute) :
    applyA f (.mk CTATupleReply d c) =
      match Tuple.UnmarshalAttribute (.mk CTATupleReply d c) with
      | .ok t => { f with TupleReply := t }
      | .error _ => f := by
  unfold applyA
  rw [dispatch_tupleReply]
  cases Tuple.UnmarshalAttribute (.mk CTATupleReply d c) <;> rfl

theorem applyA_tupleMaster (f : Flow) (d : List Nat) (c : List Attribute) :
    applyA f (.mk CTATupleMaster d c) =
      match Tuple.UnmarshalAttribute (.mk CTATupleMaster d c) with
      | .ok t => { f with TupleMaster := t }
      | .error _ => f := by
  unfold applyA
  rw [dispatch_tupleMaster]
  cases Tuple.UnmarshalAttribute (.mk CTATupleMaster d c) <;> rfl

theorem applyA_protoInfo (f : Flow) (d : List Nat) (c : List Attribute) :
    applyA f (.mk CTAProtoInfo d c) =
      match ProtoInfo.UnmarshalAttribute (.mk CTAProtoInfo d c) with
      | .ok p => { f with ProtoInfo := p }
      | .error _ => f := by
  unfold applyA
  rw [dispatch_protoInfo]
  cases ProtoInfo.UnmarshalAttribute (.mk CTAProtoInfo d c) <;> rfl

theorem applyA_help (f : Flow) (d : List Nat) (c : List Attribute) :
    applyA f (.mk CTAHelp d c) =
      match Helper.UnmarshalAttribute (.mk CTAHelp d c) with
      | .ok h => { f with Helper := h }
      | .error _ => f := by
  unfold applyA
  rw [dispatch_help]
  cases Helper.UnmarshalAttribute (.mk CTAHelp d c) <;> rfl

theorem applyA_countersOrig (f : Flow) (d : List Nat) (c : List Attribute) :
    applyA f (.mk CTACountersOrig d c) =
      match Counter.UnmarshalAttribute (.mk CTACountersOrig d c) with
      | .ok x => { f with CountersOrig := x }
      | .error _ => f := by
  unfold applyA
  rw [dispatch_countersOrig]
  cases Counter.UnmarshalAttribute (.mk CTACountersOrig d c) <;> rfl

theorem applyA_countersReply (f : Flow) (d : List Nat) (c : List Attribute) :
    applyA f (.mk CTACountersReply d c) =
      match Counter.UnmarshalAttribute (.mk CTACountersReply d c) with
      | .ok x => { f with CountersReply := x }
      | .error _ => f := by
  unfold applyA
  rw [dispatch_countersReply]
  cases Counter.UnmarshalAttribute (.mk CTACountersReply d c) <;> rfl

theorem applyA_secCtx (f : Flow) (d : List Nat) (c : List Attribute) :
    applyA f (.mk CTASecCtx d c) =
      match Security.UnmarshalAttribute (.mk CTASecCtx d c) with
      | .ok s => { f with SecurityContext := s }
      | .error _ => f := by
  unfold applyA
  rw [dispatch_secCtx]
  cases Security.UnmarshalAttribute (.mk CTASecCtx d c) <;> rfl

theorem applyA_timestamp (f : Flow) (d : List Nat) (c : List Attribute) :
    applyA f (.mk CTATimestamp d c) =
      match Timestamp.UnmarshalAttribute (.mk CTATimestamp d c) with
      | .ok t => { f with Timestamp := t }
      | .error _ => f := by
  unfold applyA
  rw [dispatch_timestamp]
  cases Timestamp.UnmarshalAttribute (.mk CTATimestamp d c) <;> rfl

theorem applyA_seqAdjOrig (f : Flow) (d : List Nat) (c : List Attribute) :
    applyA f (.mk CTASeqAdjOrig d c) =
      match SequenceAdjust.UnmarshalAttribute (.mk CTASeqAdjOrig d c) with
      | .ok s => { f with SeqAdjOrig := s }
      | .error _ => f := by
  unfold applyA
  rw [dispatch_seqAdjOrig]
  cases SequenceAdjust.UnmarshalAttribute (.mk CTASeqAdjOrig d c) <;> rfl

theorem applyA_seqAdjReply (f : Flow) (d : List Nat) (c : List Attribute) :
    applyA f (.mk CTASeqAdjReply d c) =
      match SequenceAdjust.UnmarshalAttribute (.mk CTASeqAdjReply d c) with
      | .ok s => { f with SeqAdjReply := s }
      | .error _ => f := by
  unfold applyA
  rw [dispatch_seqAdjReply]
  cases SequenceAdjust.UnmarshalAttribute (.mk CTASeqAdjReply d c) <;> rfl

theorem applyA_synProxy (f : Flow) (d : List Nat) (c : List Attribute) :
    applyA f (.mk CTASynProxy d c) =
      match SynProxy.UnmarshalAttribute (.mk CTASynProxy d c) with
      | .ok s => { f with SynProxy := s }
      | .error _ => f := by
  unfold applyA
  rw [dispatch_synProxy]
  cases SynProxy.UnmarshalAttribute (.mk CTASynProxy d c) <;> rfl

set_option maxHeartbeats 4000000 in
/-- Two dispatches on distinct type codes touch distinct fields and hence
commute. -/
theorem applyA_comm (a b : Attribute) (hab : a.typ ≠ b.typ) (f : Flow) :
    applyA (applyA f a) b = applyA (applyA f b) a := by
  by_cases ha : a.typ ∈ knownTypes
  case neg =>
    rw [applyA_unknown_id f a ha, applyA_unknown_id (applyA f b) a ha]
  case pos =>
    by_cases hb : b.typ ∈ knownTypes
    case neg =>
      rw [applyA_unknown_id f b hb, applyA_unknown_id (applyA f a) b hb]
    case pos =>
      obtain ⟨ta, da, ca⟩ := a
      obtain ⟨tb, db, cb⟩ := b
      simp only [Attribute.typ] at hab
      simp only [Attribute.typ, knownTypes, List.mem_cons, List.not_mem_nil,
        or_false] at ha hb
      rcases ha with rfl | rfl | rfl | rfl | rfl | rfl | rfl | rfl | rfl | rfl |
        rfl | rfl | rfl | rfl | rfl | rfl | rfl | rfl | rfl | rfl <;>
        rcases hb with rfl | rfl | rfl | rfl | rfl | rfl | rfl | rfl | rfl | rfl |
          rfl | rfl | rfl | rfl | rfl | rfl | rfl | rfl | rfl | rfl <;>
          first
            | exact absurd rfl hab
            | (simp only [applyA_timeout, applyA_id, applyA_use, applyA_mark,
                applyA_zone, applyA_labels, applyA_labelsMask, applyA_status,
                applyA_tupleOrig, applyA_tupleReply, applyA_tupleMaster,
                applyA_protoInfo, applyA_help, applyA_countersOrig,
                applyA_countersReply, applyA_secCtx, applyA_timestamp,
                applyA_seqAdjOrig, applyA_seqAdjReply, applyA_synProxy] <;>
               first
                 | rfl
                 | ((repeat' split) <;> rfl))

/-- The conjunction `List.all` is invariant under permutation. -/
theorem list_all_perm {α : Type} {p : α → Bool} {l₁ l₂ : List α}
    (h : l₁.Perm l₂) : l₁.all p = l₂.all p := by
  induction h with
  | nil => rfl
  | cons x _ ih => simp [List.all_cons, ih]
  | swap x y l =>
    simp only [List.all_cons]
    cases p x <;> cases p y <;> simp
  | trans _ _ ih1 ih2 => exact ih1.trans ih2

/-- C7 (amended): on attribute sequences in which no two attributes share a
type code, decode does not depend on attribute order: a permutation decodes
to the same Flow when decode succeeds and fails exactly when the original
fails. -/
theorem unmarshal_perm_invariant (f : Flow) (l₁ l₂ : List Attribute)
    (hp : l₁.Perm l₂) (hd : l₁.Pairwise fun x y => x.typ ≠ y.typ) :
    (Flow.unmarshal f l₁).toBool = (Flow.unmarshal f l₂).toBool ∧
    ∀ g : Flow, Flow.unmarshal f l₁ = .ok g ↔ Flow.unmarshal f l₂ = .ok g := by
  have hall : l₁.all attrOk = l₂.all attrOk := list_all_perm hp
  constructor
  · rw [unmarshal_toBool_eq_all, unmarshal_toBool_eq_all, hall]
  · intro g
    by_cases hok : l₁.all attrOk = true
    · have hok2 : ∀ a ∈ l₁, attrOk a = true := by
        intro a ha
        exact List.all_eq_true.mp hok a ha
      have hok3 : ∀ a ∈ l₂, attrOk a = true := fun a ha =>
        hok2 a (hp.mem_iff.mpr ha)
      have hcomm : ∀ x ∈ l₁, ∀ y ∈ l₁, ∀ z : Flow,
          applyA (applyA z x) y = applyA (applyA z y) x := by
        intro x hx y hy z
        by_cases hxy : x = y
        · subst hxy; rfl
        · exact applyA_comm x y (hd.forall (fun _ _ h => Ne.symm h) hx hy hxy) z
      rw [unmarshal_eq_foldl l₁ f hok2, unmarshal_eq_foldl l₂ f hok3,
        hp.foldl_eq' hcomm f]
    · have hf1 : (Flow.unmarshal f l₁).toBool = false := by
        rw [unmarshal_toBool_eq_all]
        exact Bool.not_eq_true _ ▸ Bool.of_not_eq_true hok
      have hf2 : (Flow.unmarshal f l₂).toBool = false := by
        rw [unmarshal_toBool_eq_all, ← hall]
        exact Bool.not_eq_true _ ▸ Bool.of_not_eq_true hok
      constructor <;> intro hg
      · rw [hg] at hf1
        exact absurd hf1 (by simp [Except.toBool])
      · rw [hg] at hf2
        exact absurd hf2 (by simp [Except.toBool])

/-- A TIMEOUT attribute carrying the value 9. -/
def timeoutAttr9 : Attribute := .mk CTATimeout [0, 0, 0, 9] []

/-- The zero Flow with Timeout 9. -/
def flowT9 : Flow := { Flow.empty with Timeout := 9 }

/-- C7 counterexample: two TIMEOUT attributes with different payloads; the
permuted sequence decodes successfully to a different Flow, so decode does
depend on the order of the input attributes. -/
theorem unmarshal_perm_counterexample :
    (([timeoutAttr5, timeoutAttr9] : List Attribute).Perm
      [timeoutAttr9, timeoutAttr5]) ∧
    Flow.empty.unmarshal [timeoutAttr5, timeoutAttr9] = .ok flowT9 ∧
    Flow.empty.unmarshal [timeoutAttr9, timeoutAttr5] = .ok flowT5 ∧
    Flow.empty.unmarshal [timeoutAttr5, timeoutAttr9] ≠
      Flow.empty.unmarshal [timeoutAttr9, timeoutAttr5] := by
  refine ⟨List.Perm.swap timeoutAttr9 timeoutAttr5 [], rfl, rfl, fun h => ?_⟩
  rw [show Flow.empty.unmarshal [timeoutAttr5, timeoutAttr9] = .ok flowT9 from rfl,
    show Flow.empty.unmarshal [timeoutAttr9, timeoutAttr5] = .ok flowT5 from rfl] at h
  exact absurd (congrArg Flow.Timeout (Except.ok.inj h)) (by decide)

theorem unmarshal_perm_invariant_witness :
    (([timeoutAttr5, markAttr7] : List Attribute).Perm [markAttr7, timeoutAttr5]) ∧
    (([timeoutAttr5, markAttr7] : List Attribute).Pairwise fun x y => x.typ ≠ y.typ) ∧
    ((Flow.empty.unmarshal [timeoutAttr5, markAttr7]).toBool =
        (Flow.empty.unmarshal [markAttr7, timeoutAttr5]).toBool ∧
      ∀ g : Flow, Flow.empty.unmarshal [timeoutAttr5, markAttr7] = .ok g ↔
        Flow.empty.unmarshal [markAttr7, timeoutAttr5] = .ok g) := by
  have hperm : ([timeoutAttr5, markAttr7] : List Attribute).Perm
      [markAttr7, timeoutAttr5] := List.Perm.swap markAttr7 timeoutAttr5 []
  have hpw : ([timeoutAttr5, markAttr7] : List Attribute).Pairwise
      fun x y => x.typ ≠ y.typ := by
    refine List.Pairwise.cons ?_ (List.Pairwise.cons ?_ List.Pairwise.nil)
    · intro y hy
      rw [List.mem_singleton.mp hy]
      decide
    · intro y hy
      exact absurd hy (List.not_mem_nil y)
  exact ⟨hperm, hpw, unmarshal_perm_invariant Flow.empty _ _ hperm hpw⟩

/-! ## C1: round-trip of every encode-emitted field -/

/-- The machine-integer bounds of a Tuple's fields together with the
address-length validity its encode requires. -/
def Tuple.Marshalable (t : Tuple) : Prop :=
  (t.IP.SourceAddress.length = 4 ∨ t.IP.SourceAddress.length = 16) ∧
  (t.IP.DestinationAddress.length = 4 ∨ t.IP.DestinationAddress.length = 16) ∧
  t.Proto.Protocol < 256 ∧ t.Proto.SourcePort < 65536 ∧
  t.Proto.DestinationPort < 65536

/-- The machine-integer bound of the populated ProtoInfo variant state. -/
def ProtoInfo.Bounded (p : ProtoInfo) : Prop :=
  match p.variant with
  | some (.tcp s) => s < 4294967296
  | some (.dccp s) => s < 4294967296
  | some (.sctp s) => s < 4294967296
  | none => True

/-- The machine-integer bounds of a SequenceAdjust value. -/
def SequenceAdjust.Bounded (s : SequenceAdjust) : Prop :=
  s.Position < 4294967296 ∧ s.OffsetBefore < 4294967296 ∧
  s.OffsetAfter < 4294967296

/-- The machine-integer bounds of a SynProxy value. -/
def SynProxy.Bounded (s : SynProxy) : Prop :=
  s.ISN < 4294967296 ∧ s.WindowScale < 4294967296

/-- Tuple decode inverts tuple encode on marshalable tuples. -/
theorem tuple_roundtrip (t : Tuple) (code : Nat) (hm : t.Marshalable) :
    ∃ a, t.MarshalAttribute code = .ok a ∧ a.typ = code ∧
      Tuple.UnmarshalAttribute a = .ok t := by
  obtain ⟨⟨sa, da⟩, ⟨pr, sp, dp⟩⟩ := t
  obtain ⟨hs, hd, hp, hsp, hdp⟩ := hm
  simp only at hs hd hp hsp hdp
  refine ⟨Attribute.mk code []
    [Attribute.mk CTATupleIP []
      [Attribute.mk (if sa.length = 4 then CTAIPv4Src else CTAIPv6Src) sa [],
       Attribute.mk (if da.length = 4 then CTAIPv4Dst else CTAIPv6Dst) da []],
     Attribute.mk CTATupleProto []
      [Attribute.mk CTAProtoNum [pr % 256] [],
       Attribute.mk CTAProtoSrcPort (natToBytes2 sp) [],
       Attribute.mk CTAProtoDstPort (natToBytes2 dp) []]], ?_, rfl, ?_⟩
  · unfold Tuple.MarshalAttribute
    rw [if_neg (by rcases hs with h | h <;> simp [h]),
      if_neg (by rcases hd with h | h <;> simp [h])]
  · rcases hs with h4 | h4 <;> rcases hd with hd4 | hd4 <;>
      simp [Tuple.UnmarshalAttribute, Attribute.typ, Attribute.data,
        Attribute.children, h4, hd4, CTATupleIP, CTATupleProto,
        CTAIPv4Src, CTAIPv6Src, CTAIPv4Dst, CTAIPv6Dst, CTAProtoNum,
        CTAProtoSrcPort, CTAProtoDstPort, bytesToNat_natToBytes2,
        bytesToNat_single, Nat.mod_eq_of_lt, hp, hsp, hdp]

/-- ProtoInfo decode inverts ProtoInfo encode on filled, bounded values. -/
theorem protoInfo_roundtrip (p : ProtoInfo) (hf : p.Filled = true)
    (hb : p.Bounded) :
    ProtoInfo.UnmarshalAttribute p.MarshalAttribute = .ok p := by
  obtain ⟨_ | v⟩ := p
  · simp [ProtoInfo.Filled] at hf
  · rcases v with s | s | s <;>
      simp_all [ProtoInfo.Bounded, ProtoInfo.MarshalAttribute,
        ProtoInfo.UnmarshalAttribute, Attribute.typ, Attribute.data,
        Attribute.children, CTAProtoInfoTCP, CTAProtoInfoDCCP, CTAProtoInfoSCTP,
        bytesToNat_natToBytes4, Nat.mod_eq_of_lt]

/-- Helper decode inverts Helper encode. -/
theorem helper_roundtrip (h : Helper) :
    Helper.UnmarshalAttribute h.MarshalAttribute = .ok h := by
  obtain ⟨n, i⟩ := h
  rfl

/-- Status decode inverts Status encode on 32-bit values. -/
theorem status_roundtrip (s : Status) (hb : s.Value < 4294967296) :
    Status.UnmarshalAttribute s.MarshalAttribute = .ok s := by
  obtain ⟨v⟩ := s
  simp only at hb
  simp [Status.MarshalAttribute, Status.UnmarshalAttribute, Attribute.data,
    bytesToNat_natToBytes4, Nat.mod_eq_of_lt hb]

/-- SequenceAdjust decode inverts SequenceAdjust encode on bounded values. -/
theorem seqAdj_roundtrip (s : SequenceAdjust) (code : Nat)
    (hb : s.Bounded) :
    SequenceAdjust.UnmarshalAttribute (s.MarshalAttribute code) = .ok s := by
  obtain ⟨p, ob, oa⟩ := s
  obtain ⟨h1, h2, h3⟩ := hb
  simp only at h1 h2 h3
  simp [SequenceAdjust.MarshalAttribute, SequenceAdjust.UnmarshalAttribute,
    Attribute.typ, Attribute.data, Attribute.children, CTASeqAdjPos,
    CTASeqAdjBefore, CTASeqAdjAfter, bytesToNat_natToBytes4,
    Nat.mod_eq_of_lt, h1, h2, h3]

/-- SynProxy decode inverts SynProxy encode on bounded values. -/
theorem synProxy_roundtrip (s : SynProxy) (hb : s.Bounded) :
    SynProxy.UnmarshalAttribute s.MarshalAttribute = .ok s := by
  obtain ⟨i, o, w⟩ := s
  obtain ⟨h1, h2⟩ := hb
  simp only at h1 h2
  simp [SynProxy.MarshalAttribute, SynProxy.UnmarshalAttribute,
    Attribute.typ, Attribute.data, Attribute.children, CTASynProxyISN,
    CTASynProxyOptions, CTASynProxyWScale, bytesToNat_natToBytes4,
    Nat.mod_eq_of_lt, h1, h2]

/-! Dispatch lemmas keyed on a type-code equation and a sub-entity decode
result. -/

theorem dispatch_tupleOrig_of (f : Flow) (a : Attribute) (t : Tuple)
    (h : a.typ = CTATupleOrig) (hu : Tuple.UnmarshalAttribute a = .ok t) :
    f.unmarshalAttribute a = .ok { f with TupleOrig := t } := by
  obtain ⟨ta, da, ca⟩ := a
  simp only [Attribute.typ] at h
  subst h
  rw [dispatch_tupleOrig, hu]

theorem dispatch_tupleReply_of (f : Flow) (a : Attribute) (t : Tuple)
    (h : a.typ = CTATupleReply) (hu : Tuple.UnmarshalAttribute a = .ok t) :
    f.unmarshalAttribute a = .ok { f with TupleReply := t } := by
  obtain ⟨ta, da, ca⟩ := a
  simp only [Attribute.typ] at h
  subst h
  rw [dispatch_tupleReply, hu]

theorem dispatch_tupleMaster_of (f : Flow) (a : Attribute) (t : Tuple)
    (h : a.typ = CTATupleMaster) (hu : Tuple.UnmarshalAttribute a = .ok t) :
    f.unmarshalAttribute a = .ok { f with TupleMaster := t } := by
  obtain ⟨ta, da, ca⟩ := a
  simp only [Attribute.typ] at h
  subst h
  rw [dispatch_tupleMaster, hu]

theorem dispatch_status_of (f : Flow) (a : Attribute)
    (h : a.typ = CTAStatus) :
    f.unmarshalAttribute a = .ok { f with Status := ⟨bytesToNat a.data⟩ } := by
  obtain ⟨ta, da, ca⟩ := a
  simp only [Attribute.typ, Attribute.data] at h ⊢
  subst h
  rw [dispatch_status]

theorem dispatch_protoInfo_of (f : Flow) (a : Attribute) (p : ProtoInfo)
    (h : a.typ = CTAProtoInfo) (hu : ProtoInfo.UnmarshalAttribute a = .ok p) :
    f.unmarshalAttribute a = .ok { f with ProtoInfo := p } := by
  obtain ⟨ta, da, ca⟩ := a
  simp only [Attribute.typ] at h
  subst h
  rw [dispatch_protoInfo, hu]

theorem dispatch_help_of (f : Flow) (a : Attribute) (x : Helper)
    (h : a.typ = CTAHelp) (hu : Helper.UnmarshalAttribute a = .ok x) :
    f.unmarshalAttribute a = .ok { f with Helper := x } := by
  obtain ⟨ta, da, ca⟩ := a
  simp only [Attribute.typ] at h
  subst h
  rw [dispatch_help, hu]

theorem dispatch_seqAdjOrig_of (f : Flow) (a : Attribute) (s : SequenceAdjust)
    (h : a.typ = CTASeqAdjOrig)
    (hu : SequenceAdjust.UnmarshalAttribute a = .ok s) :
    f.unmarshalAttribute a = .ok { f with SeqAdjOrig := s } := by
  obtain ⟨ta, da, ca⟩ := a
  simp only [Attribute.typ] at h
  subst h
  rw [dispatch_seqAdjOrig, hu]

theorem dispatch_seqAdjReply_of (f : Flow) (a : Attribute) (s : SequenceAdjust)
    (h : a.typ = CTASeqAdjReply)
    (hu : SequenceAdjust.UnmarshalAttribute a = .ok s) :
    f.unmarshalAttribute a = .ok { f with SeqAdjReply := s } := by
  obtain ⟨ta, da, ca⟩ := a
  simp only [Attribute.typ] at h
  subst h
  rw [dispatch_seqAdjReply, hu]

theorem dispatch_synProxy_of (f : Flow) (a : Attribute) (s : SynProxy)
    (h : a.typ = CTASynProxy) (hu : SynProxy.UnmarshalAttribute a = .ok s) :
    f.unmarshalAttribute a = .ok { f with SynProxy := s } := by
  obtain ⟨ta, da, ca⟩ := a
  simp only [Attribute.typ] at h
  subst h
  rw [dispatch_synProxy, hu]

theorem dispatch_timeout_of (f : Flow) (a : Attribute)
    (h : a.typ = CTATimeout) :
    f.unmarshalAttribute a = .ok { f with Timeout := a.Uint32 } := by
  obtain ⟨ta, da, ca⟩ := a
  simp only [Attribute.typ] at h
  subst h
  rw [dispatch_timeout]

theorem dispatch_mark_of (f : Flow) (a : Attribute)
    (h : a.typ = CTAMark) :
    f.unmarshalAttribute a = .ok { f with Mark := a.Uint32 } := by
  obtain ⟨ta, da, ca⟩ := a
  simp only [Attribute.typ] at h
  subst h
  rw [dispatch_mark]

theorem dispatch_zone_of (f : Flow) (a : Attribute)
    (h : a.typ = CTAZone) :
    f.unmarshalAttribute a = .ok { f with Zone := a.Uint16 } := by
  obtain ⟨ta, da, ca⟩ := a
  simp only [Attribute.typ] at h
  subst h
  rw [dispatch_zone]

/-- Stepping an unmarshal run over a successfully dispatched head. -/
theorem Flow.unmarshal_cons_ok (F G : Flow) (x : Attribute)
    (rest : List Attribute) (h : F.unmarshalAttribute x = .ok G) :
    F.unmarshal (x :: rest) = G.unmarshal rest := by
  simp only [Flow.unmarshal, h]

/-- C1: for a Flow whose optional scalars are all nonzero, whose
encode-emitted composite sub-entities are all filled, and whose fields obey
the Go machine-integer bounds, decoding the attribute list produced by
encoding reproduces every emitted field (TupleOrig, TupleReply, Timeout,
Status, Mark, Zone, ProtoInfo, Helper, TupleMaster, SeqAdjOrig,
SeqAdjReply, SynProxy) exactly. -/
theorem flow_roundtrip (f : Flow)
    (hto : f.TupleOrig.Marshalable) (htr : f.TupleReply.Marshalable)
    (htm : f.TupleMaster.Marshalable)
    (hfo : f.TupleOrig.Filled = true) (hfr : f.TupleReply.Filled = true)
    (ht0 : f.Timeout ≠ 0) (ht4 : f.Timeout < 4294967296)
    (hs0 : f.Status.Value ≠ 0) (hs4 : f.Status.Value < 4294967296)
    (hm0 : f.Mark ≠ 0) (hm4 : f.Mark < 4294967296)
    (hz0 : f.Zone ≠ 0) (hz2 : f.Zone < 65536)
    (hpif : f.ProtoInfo.Filled = true) (hpib : f.ProtoInfo.Bounded)
    (hhf : f.Helper.Filled = true)
    (htmf : f.TupleMaster.Filled = true)
    (hsof : f.SeqAdjOrig.Filled = true) (hsob : f.SeqAdjOrig.Bounded)
    (hsrf : f.SeqAdjReply.Filled = true) (hsrb : f.SeqAdjReply.Bounded)
    (hspf : f.SynProxy.Filled = true) (hspb : f.SynProxy.Bounded) :
    ∃ attrs g, f.marshal = .ok attrs ∧ Flow.empty.unmarshal attrs = .ok g ∧
      g.TupleOrig = f.TupleOrig ∧ g.TupleReply = f.TupleReply ∧
      g.Timeout = f.Timeout ∧ g.Status = f.Status ∧ g.Mark = f.Mark ∧
      g.Zone = f.Zone ∧ g.ProtoInfo = f.ProtoInfo ∧ g.Helper = f.Helper ∧
      g.TupleMaster = f.TupleMaster ∧ g.SeqAdjOrig = f.SeqAdjOrig ∧
      g.SeqAdjReply = f.SeqAdjReply ∧ g.SynProxy = f.SynProxy := by
  obtain ⟨ao, hmo, htyo, huo⟩ := tuple_roundtrip f.TupleOrig CTATupleOrig hto
  obtain ⟨ar, hmr, htyr, hur⟩ := tuple_roundtrip f.TupleReply CTATupleReply htr
  obtain ⟨am, hmm, htym, hum⟩ := tuple_roundtrip f.TupleMaster CTATupleMaster htm
  rcases f.marshal_shape hfo hfr with ⟨e, hcase, hm⟩ |
    ⟨to', tr', tm', ho', hr', hm', hmeq⟩
  · exfalso
    rcases hcase with h | h | ⟨_, h⟩
    · exact Except.noConfusion (hmo.symm.trans h)
    · exact Except.noConfusion (hmr.symm.trans h)
    · exact Except.noConfusion (hmm.symm.trans h)
  · have e1 : ao = to' := Except.ok.inj (hmo.symm.trans ho')
    have e2 : ar = tr' := Except.ok.inj (hmr.symm.trans hr')
    have e3 : am = tm' := Except.ok.inj (hmm.symm.trans (hm' htmf))
    subst e1
    subst e2
    subst e3
    have hbt : (f.Timeout != 0) = true := by simp [ht0]
    have hbs : (f.Status.Value != 0) = true := by simp [hs0]
    have hbm : (f.Mark != 0) = true := by simp [hm0]
    have hbz : (f.Zone != 0) = true := by simp [hz0]
    have hlist : marshalSpec f ao ar am =
        [ao, ar, (Num32.mk f.Timeout).MarshalAttribute CTATimeout,
         f.Status.MarshalAttribute, (Num32.mk f.Mark).MarshalAttribute CTAMark,
         (Num16.mk f.Zone).MarshalAttribute CTAZone,
         f.ProtoInfo.MarshalAttribute, f.Helper.MarshalAttribute, am,
         f.SeqAdjOrig.MarshalAttribute CTASeqAdjOrig,
         f.SeqAdjReply.MarshalAttribute CTASeqAdjReply,
         f.SynProxy.MarshalAttribute] := by
      unfold marshalSpec
      rw [if_pos hbt, if_pos hbs, if_pos hbm, if_pos hbz, if_pos hpif,
        if_pos hhf, if_pos htmf, if_pos hsof, if_pos hsrf, if_pos hspf]
      rfl
    rw [hlist] at hmeq
    refine ⟨_,
      ({ Flow.empty with
         TupleOrig := f.TupleOrig,
         TupleReply := f.TupleReply,
         Timeout := f.Timeout,
         Status := f.Status,
         Mark := f.Mark,
         Zone := f.Zone,
         ProtoInfo := f.ProtoInfo,
         Helper := f.Helper,
         TupleMaster := f.TupleMaster,
         SeqAdjOrig := f.SeqAdjOrig,
         SeqAdjReply := f.SeqAdjReply,
         SynProxy := f.SynProxy } : Flow),
      hmeq, ?_, rfl, rfl, rfl, rfl, rfl, rfl, rfl, rfl, rfl, rfl, rfl, rfl⟩
    rw [Flow.unmarshal_cons_ok _ _ _ _ (dispatch_tupleOrig_of _ _ _ htyo huo),
        Flow.unmarshal_cons_ok _ _ _ _ (dispatch_tupleReply_of _ _ _ htyr hur),
        Flow.unmarshal_cons_ok _ _ _ _
          (dispatch_timeout_of _ _ (num32Marshal_typ _ _)),
        Flow.unmarshal_cons_ok _ _ _ _
          (dispatch_status_of _ _ (statusMarshal_typ _)),
        Flow.unmarshal_cons_ok _ _ _ _
          (dispatch_mark_of _ _ (num32Marshal_typ _ _)),
        Flow.unmarshal_cons_ok _ _ _ _
          (dispatch_zone_of _ _ (num16Marshal_typ _ _)),
        Flow.unmarshal_cons_ok _ _ _ _
          (dispatch_protoInfo_of _ _ _ (protoInfoMarshal_typ _)
            (protoInfo_roundtrip _ hpif hpib)),
        Flow.unmarshal_cons_ok _ _ _ _
          (dispatch_help_of _ _ _ (helperMarshal_typ _)
            (helper_roundtrip _)),
        Flow.unmarshal_cons_ok _ _ _ _ (dispatch_tupleMaster_of _ _ _ htym hum),
        Flow.unmarshal_cons_ok _ _ _ _
          (dispatch_seqAdjOrig_of _ _ _ (seqAdjMarshal_typ _ _)
            (seqAdj_roundtrip _ _ hsob)),
        Flow.unmarshal_cons_ok _ _ _ _
          (dispatch_seqAdjReply_of _ _ _ (seqAdjMarshal_typ _ _)
            (seqAdj_roundtrip _ _ hsrb)),
        Flow.unmarshal_cons_ok _ _ _ _
          (dispatch_synProxy_of _ _ _ (synProxyMarshal_typ _)
            (synProxy_roundtrip _ hspb))]
    simp [Flow.unmarshal, Num32.MarshalAttribute, Num16.MarshalAttribute,
      Status.MarshalAttribute, Attribute.Uint32, Attribute.Uint16,
      Attribute.data, bytesToNat_natToBytes4, bytesToNat_natToBytes2,
      Nat.mod_eq_of_lt, ht4, hs4, hm4, hz2]

/-- A Flow with every encode-emitted optional scalar nonzero and every
encode-emitted composite sub-entity filled. -/
def fullFlow : Flow :=
  { Flow.empty with
    Timeout := 120,
    Status := ⟨3⟩,
    Mark := 7,
    Zone := 2,
    ProtoInfo := ⟨some (.tcp 5)⟩,
    Helper := ⟨[102, 116, 112], [1, 2]⟩,
    TupleOrig := sampleTupleOrig,
    TupleReply := sampleTupleReply,
    TupleMaster := sampleTupleOrig,
    SeqAdjOrig := ⟨1, 2, 3⟩,
    SeqAdjReply := ⟨4, 5, 6⟩,
    SynProxy := ⟨9, [1], 2⟩ }

theorem flow_roundtrip_witness :
    fullFlow.TupleOrig.Marshalable ∧ fullFlow.TupleReply.Marshalable ∧
    fullFlow.TupleMaster.Marshalable ∧ fullFlow.TupleOrig.Filled = true ∧
    fullFlow.TupleReply.Filled = true ∧ fullFlow.Timeout ≠ 0 ∧
    fullFlow.Timeout < 4294967296 ∧ fullFlow.Status.Value ≠ 0 ∧
    fullFlow.Status.Value < 4294967296 ∧ fullFlow.Mark ≠ 0 ∧
    fullFlow.Mark < 4294967296 ∧ fullFlow.Zone ≠ 0 ∧ fullFlow.Zone < 65536 ∧
    fullFlow.ProtoInfo.Filled = true ∧ fullFlow.ProtoInfo.Bounded ∧
    fullFlow.Helper.Filled = true ∧ fullFlow.TupleMaster.Filled = true ∧
    fullFlow.SeqAdjOrig.Filled = true ∧ fullFlow.SeqAdjOrig.Bounded ∧
    fullFlow.SeqAdjReply.Filled = true ∧ fullFlow.SeqAdjReply.Bounded ∧
    fullFlow.SynProxy.Filled = true ∧ fullFlow.SynProxy.Bounded ∧
    (∃ attrs g, fullFlow.marshal = .ok attrs ∧
      Flow.empty.unmarshal attrs = .ok g ∧
      g.TupleOrig = fullFlow.TupleOrig ∧ g.TupleReply = fullFlow.TupleReply ∧
      g.Timeout = fullFlow.Timeout ∧ g.Status = fullFlow.Status ∧
      g.Mark = fullFlow.Mark ∧ g.Zone = fullFlow.Zone ∧
      g.ProtoInfo = fullFlow.ProtoInfo ∧ g.Helper = fullFlow.Helper ∧
      g.TupleMaster = fullFlow.TupleMaster ∧ g.SeqAdjOrig = fullFlow.SeqAdjOrig ∧
      g.SeqAdjReply = fullFlow.SeqAdjReply ∧ g.SynProxy = fullFlow.SynProxy) := by
  have h1 : fullFlow.TupleOrig.Marshalable :=
    ⟨.inl rfl, .inl rfl, by decide, by decide, by decide⟩
  have h2 : fullFlow.TupleReply.Marshalable :=
    ⟨.inl rfl, .inl rfl, by decide, by decide, by decide⟩
  have h3 : fullFlow.TupleMaster.Marshalable :=
    ⟨.inl rfl, .inl rfl, by decide, by decide, by decide⟩
  have h4 : fullFlow.TupleOrig.Filled = true := rfl
  have h5 : fullFlow.TupleReply.Filled = true := rfl
  have h6 : fullFlow.Timeout ≠ 0 := by decide
  have h7 : fullFlow.Timeout < 4294967296 := by decide
  have h8 : fullFlow.Status.Value ≠ 0 := by decide
  have h9 : fullFlow.Status.Value < 4294967296 := by decide
  have h10 : fullFlow.Mark ≠ 0 := by decide
  have h11 : fullFlow.Mark < 4294967296 := by decide
  have h12 : fullFlow.Zone ≠ 0 := by decide
  have h13 : fullFlow.Zone < 65536 := by decide
  have h14 : fullFlow.ProtoInfo.Filled = true := rfl
  have h15 : fullFlow.ProtoInfo.Bounded := by
    show (5 : Nat) < 4294967296
    decide
  have h16 : fullFlow.Helper.Filled = true := rfl
  have h17 : fullFlow.TupleMaster.Filled = true := rfl
  have h18 : fullFlow.SeqAdjOrig.Filled = true := rfl
  have h19 : fullFlow.SeqAdjOrig.Bounded := ⟨by decide, by decide, by decide⟩
  have h20 : fullFlow.SeqAdjReply.Filled = true := rfl
  have h21 : fullFlow.SeqAdjReply.Bounded := ⟨by decide, by decide, by decide⟩
  have h22 : fullFlow.SynProxy.Filled = true := rfl
  have h23 : fullFlow.SynProxy.Bounded := ⟨by decide, by decide⟩
  exact ⟨h1, h2, h3, h4, h5, h6, h7, h8, h9, h10, h11, h12, h13, h14, h15,
    h16, h17, h18, h19, h20, h21, h22, h23,
    flow_roundtrip fullFlow h1 h2 h3 h4 h5 h6 h7 h8 h9 h10 h11 h12 h13 h14
      h15 h16 h17 h18 h19 h20 h21 h22 h23⟩

end Conntrack
